import Mathlib

/-!
Verification development for the go-urlpattern library (an implementation of
the WHATWG URLPattern standard).  The definitions below are a shallow
embedding of the Go source files: the tokenizer and escaping utilities,
the pattern parser, the part-list code generators, the URLPatternInit
processing pipeline and the match procedure.  Go strings are modelled as
Lean `String`s; rune ([]rune) indexing is modelled through `String.data`
(the list of characters) and Go byte lengths through `String.utf8ByteSize`.
External collaborators (the WHATWG URL parser and the regular-expression
engine) are parameters of the corresponding definitions, as the library's
documentation treats them as out-of-scope dependencies.
-/

namespace UrlPattern

/-- Error values returned by the library.  Each constructor corresponds to one
of the `errors.New`/`fmt.Errorf` values of the Go source; `runePanic` models a
Go runtime panic caused by an out-of-range slice index; `outOfFuel` marks a
computation that did not finish within the given fuel (the Go original would
loop forever on those paths); `external` stands for an error value produced by
one of the external collaborators (URL parser, regexp engine). -/
inductive GoErr where
  | typeError
  | noBaseURL
  | unexpectedEmptyString
  | nonEmptySuffix
  | badParserIndex
  | duplicatePartName
  | requiredToken
  | missingCloseToken
  | missingEndToken
  | invalidIPv6Hostname
  | invalidPort
  | emptyPartName
  | invalidModifier
  | invalidPrefixOrSuffix
  | invalidPartName
  | invalidHostname
  | runePanic
  | outOfFuel
  | external (code : Nat)
  deriving DecidableEq, Repr

/-- Token kinds, from the `tokenType` constants of the token definitions file. -/
inductive tokenType where
  | tokenOpen
  | tokenClose
  | tokenRegexp
  | tokenName
  | tokenChar
  | tokenEscapedChar
  | tokenOtherModifier
  | tokenAsterisk
  | tokenEnd
  | tokenInvalidChar
  deriving DecidableEq, Repr

/-- A token: kind, the rune offset in the input at which it began, and the
value string (the `token` struct). -/
structure token where
  tType : tokenType
  index : Nat
  value : String
  deriving DecidableEq, Repr

/-- Component compile options (the `options` struct).  Go stores the two code
points as bytes that must be ASCII; we model them as characters. -/
structure options where
  delimiterCodePoint : Char
  prefixCodePoint : Char
  ignoreCase : Bool
  deriving DecidableEq, Repr

/-- Go zero value `options{}`. -/
def defaultOptions : options := ⟨Char.ofNat 0, Char.ofNat 0, false⟩

/-- The `hostnameOptions` value used when compiling the hostname component. -/
def hostnameOptions : options := ⟨'.', Char.ofNat 0, false⟩

/-- Part kinds (the `partType` constants). -/
inductive partType where
  | partFixedText
  | partRegexp
  | partSegmentWildcard
  | partFullWildcard
  deriving DecidableEq, Repr

/-- Part modifiers (the `partModifier` constants). -/
inductive partModifier where
  | partModifierNone
  | partModifierOptional
  | partModifierZeroOrMore
  | partModifierOneOrMore
  deriving DecidableEq, Repr

/-- A part of a parsed pattern (the `part` struct).  The Go field `prefix` is
called `prefix_` here. -/
structure part where
  pType : partType
  value : String
  modifier : partModifier
  name : String
  prefix_ : String
  suffix : String
  deriving DecidableEq, Repr

/-- A part list. -/
abbrev partList := List part

/-- The characters escaped by `escapeRegexpString` (the `specialRegexpBytes`
bitmap is initialised from this very list). -/
def specialRegexpChars : List Char :=
  ['\\', '.', '+', '*', '?', '(', ')', '|', '[', ']', '{', '}', '^', '$', '/']

/-- The characters escaped by `escapePatternString` (the `specialPatternBytes`
bitmap). -/
def specialPatternChars : List Char :=
  ['\\', '+', '*', '?', '(', ')', '{', '}', ':']

/-- Whether a character is special for regexp escaping (`specialRegexp`).  The
Go test `b < utf8.RuneSelf && bitmap` only matches ASCII bytes; every listed
character is ASCII, so list membership is an exact model. -/
def specialRegexp (c : Char) : Bool := specialRegexpChars.contains c

/-- Whether a character is special for pattern escaping (`specialPattern`). -/
def specialPattern (c : Char) : Bool := specialPatternChars.contains c

/-- Core of both escaping functions: prefix every special character with a
backslash.  The Go originals loop over bytes, which is equivalent to this
character-level loop because every metacharacter is ASCII (as the source
comment notes). -/
def escapeChars (special : Char → Bool) : List Char → List Char
  | [] => []
  | c :: rest =>
    if special c then '\\' :: c :: escapeChars special rest
    else c :: escapeChars special rest

/-- Escape a string for inclusion in regexp source (`escapeRegexpString`). -/
def escapeRegexpString (s : String) : String :=
  String.mk (escapeChars specialRegexp s.data)

/-- Escape a string for inclusion in a pattern string (`escapePatternString`). -/
def escapePatternString (s : String) : String :=
  String.mk (escapeChars specialPattern s.data)

/-- The full wildcard regexp value (`fullWildcardRegexpValue`). -/
def fullWildcardRegexpValue : String := ".*"

/-- Generate the segment wildcard regexp for the given options
(`generateSegmentWildcardRegexp`). -/
def generateSegmentWildcardRegexp (opts : options) : String :=
  "[^" ++ escapeRegexpString (String.singleton opts.delimiterCodePoint) ++ "]+?"

/-- Convert a modifier to its display character (`convertModifierToString`);
the Go function returns the zero byte for `none`, and callers skip it. -/
def convertModifierToString : partModifier → Char
  | .partModifierZeroOrMore => '*'
  | .partModifierOptional => '?'
  | .partModifierOneOrMore => '+'
  | .partModifierNone => Char.ofNat 0

/-- The string a caller appends for a modifier: empty when
`convertModifierToString` returns the zero byte. -/
def modifierToStringIfAny (m : partModifier) : String :=
  if convertModifierToString m = Char.ofNat 0 then ""
  else String.singleton (convertModifierToString m)

/-- Whether a rune is ASCII (`isASCII`). -/
def isASCII (c : Char) : Bool := c.val ≤ 127

/-- Identifier-start test (`isIdentifierStart`).  Go consults the `unicode`
package tables (L, Nl, Other_ID_Start minus Pattern_Syntax and
Pattern_White_Space); restricted to the ASCII range those tables accept
exactly the ASCII letters, which is what this model implements.  Every
theorem below evaluates the tokenizer on ASCII input only (non-ASCII input
characters reach only the default `Char` production, which does not consult
this predicate). -/
def isIdentifierStart (c : Char) : Bool := c.isAlpha

/-- Identifier-continuation test (`isIdentifierPart`); on the ASCII range the
Go tables accept letters, digits and the underscore (Pc). -/
def isIdentifierPart (c : Char) : Bool := c.isAlphanum || c = '_'

/-- Valid name code point test (`isValidNameCodePoint`). -/
def isValidNameCodePoint (codePoint : Char) (first : Bool) : Bool :=
  if first then isIdentifierStart codePoint
  else isIdentifierPart codePoint

/-- Tokenizer state (the `tokenizer` struct).  The input is the sequence of
runes of the pattern string (`utf8string.String` indexes runes). -/
structure tokenizer where
  input : List Char
  policy : Bool
  tokenList : List token
  index : Nat
  nextIndex : Nat
  codePoint : Char

/-- Slice of the rune sequence `[a, b)` as a string (`utf8string.Slice`). -/
def strSlice (l : List Char) (a b : Nat) : String :=
  String.mk ((l.drop a).take (b - a))

/-- Strict policy constant (`tokenizePolicyStrict`, Go `true`). -/
def tokenizePolicyStrict : Bool := true

/-- Lenient policy constant (`tokenizePolicyLenient`, Go `false`). -/
def tokenizePolicyLenient : Bool := false

/-- Read the rune at `nextIndex` and advance (`getNextCodePoint`).  Go panics
on an out-of-range access; every call site is guarded, so the `getD` default
is never observed. -/
def tokenizer.getNextCodePoint (t : tokenizer) : tokenizer :=
  { t with codePoint := t.input.getD t.nextIndex (Char.ofNat 0),
           nextIndex := t.nextIndex + 1 }

/-- Seek to `index` then read (`seekAndGetNextCodePoint`). -/
def tokenizer.seekAndGetNextCodePoint (t : tokenizer) (index : Nat) : tokenizer :=
  tokenizer.getNextCodePoint { t with nextIndex := index }

/-- Append a token whose value is the rune slice
`[valuePosition, valuePosition+valueLength)` and move `index` to
`nextPosition` (`addToken`). -/
def tokenizer.addToken (t : tokenizer) (tType : tokenType)
    (nextPosition valuePosition valueLength : Nat) : tokenizer :=
  { t with tokenList := t.tokenList ++
             [⟨tType, t.index, strSlice t.input valuePosition (valuePosition + valueLength)⟩],
           index := nextPosition }

/-- `addTokenWithDefaultLength`. -/
def tokenizer.addTokenWithDefaultLength (t : tokenizer) (tType : tokenType)
    (nextPosition valuePosition : Nat) : tokenizer :=
  t.addToken tType nextPosition valuePosition (nextPosition - valuePosition)

/-- `addTokenWithDefaultPositionAndLength`. -/
def tokenizer.addTokenWithDefaultPositionAndLength (t : tokenizer) (tType : tokenType) : tokenizer :=
  t.addTokenWithDefaultLength tType t.nextIndex t.index

/-- `processTokenizingError`: in strict mode fail with the wrapped
`TypeError`; in lenient mode record an `InvalidChar` token. -/
def tokenizer.processTokenizingError (t : tokenizer)
    (nextPosition valuePosition : Nat) : Except GoErr tokenizer :=
  if t.policy = tokenizePolicyStrict then .error .typeError
  else .ok (t.addTokenWithDefaultLength .tokenInvalidChar nextPosition valuePosition)

/-- The name-scanning loop of the `:` production: advance `namePosition` while
the code point is a valid name code point.  The loop in Go terminates because
`namePosition` strictly increases; the fuel argument (instantiated with a
value larger than the input length) makes that explicit. -/
def tokenizer.nameScan : Nat → tokenizer → Nat → Nat → Nat → tokenizer × Nat
  | 0, t, namePosition, _, _ => (t, namePosition)
  | fuel + 1, t, namePosition, nameStart, len =>
    if namePosition < len then
      let t := t.seekAndGetNextCodePoint namePosition
      if isValidNameCodePoint t.codePoint (namePosition == nameStart) then
        tokenizer.nameScan fuel t t.nextIndex nameStart len
      else (t, namePosition)
    else (t, namePosition)

/-- The repeated error exit of the regexp loop: `error = true; break Loop`
followed by the outer `continue` (lenient) or the immediate error return
(strict). -/
def tokenizer.regexpScanError (t : tokenizer) (regexpStart : Nat) :
    Except GoErr (tokenizer × Option (Nat × Nat)) :=
  match t.processTokenizingError regexpStart t.index with
  | .error e => .error e
  | .ok t => .ok (t, none)

/-- The regexp-scanning loop of the `(` production (the labelled `Loop` in the
source).  Result `.ok (t, none)` corresponds to the `error = true` exits
(lenient mode: an `InvalidChar` token was recorded and the outer loop
continues); `.ok (t, some (regexpPosition, depth))` corresponds to a normal
loop exit. -/
def tokenizer.regexpScan : Nat → tokenizer → Nat → Nat → Nat → Nat →
    Except GoErr (tokenizer × Option (Nat × Nat))
  | 0, _, _, _, _, _ => .error .outOfFuel
  | fuel + 1, t, depth, regexpPosition, regexpStart, len =>
    if regexpPosition < len then
      let t := t.seekAndGetNextCodePoint regexpPosition
      if ¬ isASCII t.codePoint ∨ (regexpPosition == regexpStart ∧ t.codePoint = '?') then
        t.regexpScanError regexpStart
      else if t.codePoint = '\\' then
        if regexpPosition == len - 1 then
          t.regexpScanError regexpStart
        else
          let t := t.getNextCodePoint
          if ¬ isASCII t.codePoint then
            t.regexpScanError regexpStart
          else
            tokenizer.regexpScan fuel t depth t.nextIndex regexpStart len
      else if t.codePoint = ')' then
        let depth := depth - 1
        if depth == 0 then
          .ok (t, some (t.nextIndex, 0))
        else
          tokenizer.regexpScan fuel t depth t.nextIndex regexpStart len
      else if t.codePoint = '(' then
        let depth := depth + 1
        if regexpPosition == len - 1 then
          t.regexpScanError regexpStart
        else
          let temporaryPosition := t.nextIndex
          let t := t.getNextCodePoint
          if t.codePoint ≠ '?' then
            t.regexpScanError regexpStart
          else
            let t := { t with nextIndex := temporaryPosition }
            tokenizer.regexpScan fuel t depth t.nextIndex regexpStart len
      else
        tokenizer.regexpScan fuel t depth t.nextIndex regexpStart len
    else .ok (t, some (regexpPosition, depth))

/-- Result of `tokenize`.  Go returns a pair `([]token, error)`:
`.ok` is `(list, nil)`, `.err` is `(nil, err)`, `.goNil` is the `(nil, nil)`
return reached for a trailing backslash in lenient mode, and `.diverge`
models the non-terminating strict-mode path (the fuel ran out while the
state no longer changes). -/
inductive TokenizeResult where
  | diverge
  | err (e : GoErr)
  | goNil
  | ok (tokens : List token)
  deriving DecidableEq, Repr

/-- Main tokenizer loop (the `for t.index < len` loop of `tokenize`). -/
def tokenizeLoop : Nat → tokenizer → Nat → TokenizeResult
  | 0, _, _ => .diverge
  | fuel + 1, t, len =>
    if t.index < len then
      let t := t.seekAndGetNextCodePoint t.index
      if t.codePoint = '*' then
        tokenizeLoop fuel (t.addTokenWithDefaultPositionAndLength .tokenAsterisk) len
      else if t.codePoint = '+' ∨ t.codePoint = '?' then
        tokenizeLoop fuel (t.addTokenWithDefaultPositionAndLength .tokenOtherModifier) len
      else if t.codePoint = '\\' then
        if t.index == len - 1 then
          -- Source: `if err := t.processTokenizingError(...); err == nil { return nil, err }`.
          -- In lenient mode the error value is nil, so tokenize returns the nil
          -- list; in strict mode the condition is false and the loop continues
          -- with an unchanged state (it never terminates).
          (match t.processTokenizingError t.nextIndex t.index with
          | .error _ => tokenizeLoop fuel t len
          | .ok _ => .goNil)
        else
          let escapedIndex := t.nextIndex
          let t := t.getNextCodePoint
          tokenizeLoop fuel (t.addTokenWithDefaultLength .tokenEscapedChar t.nextIndex escapedIndex) len
      else if t.codePoint = '{' then
        tokenizeLoop fuel (t.addTokenWithDefaultPositionAndLength .tokenOpen) len
      else if t.codePoint = '}' then
        tokenizeLoop fuel (t.addTokenWithDefaultPositionAndLength .tokenClose) len
      else if t.codePoint = ':' then
        let namePosition := t.nextIndex
        let nameStart := namePosition
        let scanned := tokenizer.nameScan (len + 1) t namePosition nameStart len
        let t := scanned.1
        let namePosition := scanned.2
        if namePosition ≤ nameStart then
          (match t.processTokenizingError nameStart t.index with
          | .error e => .err e
          | .ok t => tokenizeLoop fuel t len)
        else
          tokenizeLoop fuel (t.addTokenWithDefaultLength .tokenName namePosition nameStart) len
      else if t.codePoint = '(' then
        let regexpPosition := t.nextIndex
        let regexpStart := regexpPosition
        (match tokenizer.regexpScan (len + 1) t 1 regexpPosition regexpStart len with
        | .error e => .err e
        | .ok (t, none) => tokenizeLoop fuel t len
        | .ok (t, some (regexpPosition, depth)) =>
          if depth ≠ 0 then
            (match t.processTokenizingError regexpStart t.index with
            | .error e => .err e
            | .ok t => tokenizeLoop fuel t len)
          else
            let regexpLength := regexpPosition - regexpStart - 1
            if regexpLength == 0 then
              (match t.processTokenizingError regexpStart t.index with
              | .error e => .err e
              | .ok t => tokenizeLoop fuel t len)
            else
              tokenizeLoop fuel (t.addToken .tokenRegexp regexpPosition regexpStart regexpLength) len)
      else
        tokenizeLoop fuel (t.addTokenWithDefaultPositionAndLength .tokenChar) len
    else
      .ok (t.addTokenWithDefaultLength .tokenEnd t.index t.index).tokenList

/-- `tokenize`: build the initial state and run the loop with the given fuel.
An iteration of the Go loop always advances `t.index` except on the
trailing-backslash strict path, so `input` length plus one iterations suffice
whenever the Go original terminates. -/
def tokenizeFuel (input : String) (policy : Bool) (fuel : Nat) : TokenizeResult :=
  tokenizeLoop fuel ⟨input.data, policy, [], 0, 0, Char.ofNat 0⟩ input.data.length

/-- `tokenize` with the canonical sufficient fuel. -/
def tokenize (input : String) (policy : Bool) : TokenizeResult :=
  tokenizeFuel input policy (input.data.length + 1)

/-- An encoding callback canonicalizes a literal string for the target
component (`encodingCallback`). -/
abbrev encodingCallback := String → Except GoErr String

/-- Pattern parser state (the `patternParser` struct).  Go stores the numeric
name counter as a `float64` and prints it with `strconv.FormatFloat(_, 'f',
-1, 64)`, which renders integral values without a fractional part; a natural
number printed with `toString` is an exact model for every counter value the
parser can reach. -/
structure patternParser where
  tokenList : List token
  encodingCallback : encodingCallback
  segmentWildcardRegexp : String
  partList : partList
  pendingFixedValue : String
  index : Nat
  nextNumericName : Nat

/-- `tryConsumeToken`: return the next token if it has the wanted type. -/
def patternParser.tryConsumeToken (p : patternParser) (tokenType : tokenType) :
    Except GoErr (Option token × patternParser) :=
  if p.index ≥ p.tokenList.length then .error .badParserIndex
  else
    let nextToken := p.tokenList.getD p.index ⟨.tokenEnd, 0, ""⟩
    if nextToken.tType ≠ tokenType then .ok (none, p)
    else .ok (some nextToken, { p with index := p.index + 1 })

/-- `tryConsumeRegexpOrWildcardToken`. -/
def patternParser.tryConsumeRegexpOrWildcardToken (p : patternParser)
    (nameToken : Option token) : Except GoErr (Option token × patternParser) :=
  match p.tryConsumeToken .tokenRegexp with
  | .error e => .error e
  | .ok (tok, p) =>
    if nameToken = none ∧ tok = none then p.tryConsumeToken .tokenAsterisk
    else .ok (tok, p)

/-- `maybeAddPartFromPendingFixedValue`. -/
def patternParser.maybeAddPartFromPendingFixedValue (p : patternParser) :
    Except GoErr patternParser :=
  if p.pendingFixedValue = "" then .ok p
  else
    match p.encodingCallback p.pendingFixedValue with
    | .error e => .error e
    | .ok encodedValue =>
      .ok { p with pendingFixedValue := "",
                   partList := p.partList ++
                     [⟨.partFixedText, encodedValue, .partModifierNone, "", "", ""⟩] }

/-- `tryConsumeModifierToken`. -/
def patternParser.tryConsumeModifierToken (p : patternParser) :
    Except GoErr (Option token × patternParser) :=
  match p.tryConsumeToken .tokenOtherModifier with
  | .error e => .error e
  | .ok (tok, p) =>
    if tok ≠ none then .ok (tok, p)
    else p.tryConsumeToken .tokenAsterisk

/-- `isDuplicateName`: whether an earlier part carries this name. -/
def patternParser.isDuplicateName (p : patternParser) (name : String) : Bool :=
  p.partList.any (fun part => part.name = name)

/-- The name `addPart` chooses for a new (non-fixed-text) part: the `Name`
token's value, or the next numeric counter value for an anonymous regexp or
wildcard part. -/
def chosenPartName (p : patternParser) (nameToken regexpOrWildcardToken : Option token) :
    String :=
  match nameToken with
  | some tok => tok.value
  | none =>
    match regexpOrWildcardToken with
    | some _ => toString p.nextNumericName
    | none => ""

/-- The modifier encoded by an optional modifier token (the `switch` at the
head of `addPart`). -/
def tokenToModifier : Option token → partModifier
  | none => .partModifierNone
  | some tok =>
    if tok.value = "?" then .partModifierOptional
    else if tok.value = "*" then .partModifierZeroOrMore
    else if tok.value = "+" then .partModifierOneOrMore
    else .partModifierNone

/-- The raw regexp value of `addPart`: the segment wildcard regexp for a bare
name, the full wildcard value for an asterisk token, and the token's value for
a custom regexp. -/
def rawRegexpValue (segmentWildcardRegexp : String) (regexpOrWildcardToken : Option token) :
    String :=
  match regexpOrWildcardToken with
  | none => segmentWildcardRegexp
  | some tok =>
    if tok.tType = .tokenAsterisk then fullWildcardRegexpValue
    else tok.value

/-- The part type and stored value `addPart` derives from the raw regexp
value. -/
def resolvePartType (segmentWildcardRegexp regexpValue : String) : partType × String :=
  if regexpValue = segmentWildcardRegexp then (.partSegmentWildcard, "")
  else if regexpValue = fullWildcardRegexpValue then (.partFullWildcard, "")
  else (.partRegexp, regexpValue)

/-- `addPart`: materialise a part from the collected pieces.  The numeric
counter is consumed exactly when the part is anonymous (no name token) and a
regexp-or-wildcard token is present, matching the Go assignment of
`nextNumericName`. -/
def patternParser.addPart (p : patternParser) (prefix_ : String)
    (nameToken : Option token) (regexpOrWildcardToken : Option token)
    (suffix : String) (modifierToken : Option token) : Except GoErr patternParser :=
  if nameToken = none ∧ regexpOrWildcardToken = none ∧
      tokenToModifier modifierToken = .partModifierNone then
    .ok { p with pendingFixedValue := p.pendingFixedValue ++ prefix_ }
  else
    match p.maybeAddPartFromPendingFixedValue with
    | .error e => .error e
    | .ok p =>
      if nameToken = none ∧ regexpOrWildcardToken = none then
        if suffix ≠ "" then .error .nonEmptySuffix
        else if prefix_ = "" then .ok p
        else
          match p.encodingCallback prefix_ with
          | .error e => .error e
          | .ok encodedValue =>
            .ok { p with partList := p.partList ++
                    [⟨.partFixedText, encodedValue, tokenToModifier modifierToken,
                      "", "", ""⟩] }
      else
        let typeAndValue :=
          resolvePartType p.segmentWildcardRegexp
            (rawRegexpValue p.segmentWildcardRegexp regexpOrWildcardToken)
        let name := chosenPartName p nameToken regexpOrWildcardToken
        let p :=
          if nameToken = none ∧ regexpOrWildcardToken ≠ none then
            { p with nextNumericName := p.nextNumericName + 1 }
          else p
        if p.isDuplicateName name then .error .duplicatePartName
        else
          match p.encodingCallback prefix_ with
          | .error e => .error e
          | .ok encodedPrefix =>
            match p.encodingCallback suffix with
            | .error e => .error e
            | .ok encodedSuffix =>
              .ok { p with partList := p.partList ++
                      [⟨typeAndValue.1, typeAndValue.2, tokenToModifier modifierToken,
                        name, encodedPrefix, encodedSuffix⟩] }

/-- `consumeText`: collect consecutive `Char` and `EscapedChar` token values.
The loop consumes one token per iteration, so the token-list length bounds the
iteration count; the fuel makes that explicit. -/
def patternParser.consumeText : Nat → patternParser → String →
    Except GoErr (String × patternParser)
  | 0, _, _ => .error .outOfFuel
  | fuel + 1, p, acc =>
    match p.tryConsumeToken .tokenChar with
    | .error e => .error e
    | .ok (tok, p) =>
      match (if tok = none then p.tryConsumeToken .tokenEscapedChar else .ok (tok, p)) with
      | .error e => .error e
      | .ok (none, p) => .ok (acc, p)
      | .ok (some tok, p) => patternParser.consumeText fuel p (acc ++ tok.value)

/-- `consumeRequiredToken`. -/
def patternParser.consumeRequiredToken (p : patternParser) (tokenType : tokenType) :
    Except GoErr (token × patternParser) :=
  match p.tryConsumeToken tokenType with
  | .error e => .error e
  | .ok (none, _) => .error .requiredToken
  | .ok (some tok, p) => .ok (tok, p)

/-- One iteration of the `parsePatternString` main loop; every successful Go
branch ends in `continue`, so the body maps a state to a state. -/
def parseIteration (opts : options) (p : patternParser) : Except GoErr patternParser :=
  match p.tryConsumeToken .tokenChar with
  | .error e => .error e
  | .ok (charToken, p) =>
  match p.tryConsumeToken .tokenName with
  | .error e => .error e
  | .ok (nameToken, p) =>
  match p.tryConsumeRegexpOrWildcardToken nameToken with
  | .error e => .error e
  | .ok (regexpOrWildcardToken, p) =>
  if nameToken ≠ none ∨ regexpOrWildcardToken ≠ none then
    let prefix_ := match charToken with
      | some tok => tok.value
      | none => ""
    let (prefix_, p) : String × patternParser :=
      if prefix_ ≠ "" ∧ prefix_ ≠ String.singleton opts.prefixCodePoint then
        ("", { p with pendingFixedValue := p.pendingFixedValue ++ prefix_ })
      else (prefix_, p)
    match p.maybeAddPartFromPendingFixedValue with
    | .error e => .error e
    | .ok p =>
    match p.tryConsumeModifierToken with
    | .error e => .error e
    | .ok (modifierToken, p) =>
      p.addPart prefix_ nameToken regexpOrWildcardToken "" modifierToken
  else
  match (if charToken = none then p.tryConsumeToken .tokenEscapedChar else .ok (charToken, p)) with
  | .error e => .error e
  | .ok (some fixedToken, p) =>
    .ok { p with pendingFixedValue := p.pendingFixedValue ++ fixedToken.value }
  | .ok (none, p) =>
  match p.tryConsumeToken .tokenOpen with
  | .error e => .error e
  | .ok (some _, p) =>
    (match patternParser.consumeText (p.tokenList.length + 1) p "" with
    | .error e => .error e
    | .ok (prefix_, p) =>
    match p.tryConsumeToken .tokenName with
    | .error e => .error e
    | .ok (nameToken, p) =>
    match p.tryConsumeRegexpOrWildcardToken nameToken with
    | .error e => .error e
    | .ok (regexpOrWildcardToken, p) =>
    match patternParser.consumeText (p.tokenList.length + 1) p "" with
    | .error e => .error e
    | .ok (suffix, p) =>
    match p.consumeRequiredToken .tokenClose with
    | .error _ => .error .missingCloseToken
    | .ok (_, p) =>
    match p.tryConsumeModifierToken with
    | .error e => .error e
    | .ok (modifierToken, p) =>
      p.addPart prefix_ nameToken regexpOrWildcardToken suffix modifierToken)
  | .ok (none, p) =>
  match p.maybeAddPartFromPendingFixedValue with
  | .error e => .error e
  | .ok p =>
  match p.consumeRequiredToken .tokenEnd with
  | .error _ => .error .missingEndToken
  | .ok (_, p) => .ok p

/-- The `for p.index < tls` loop of `parsePatternString`. -/
def parseLoop (opts : options) : Nat → patternParser → Except GoErr partList
  | 0, _ => .error .outOfFuel
  | fuel + 1, p =>
    if p.index < p.tokenList.length then
      match parseIteration opts p with
      | .error e => .error e
      | .ok p => parseLoop opts fuel p
    else .ok p.partList

/-- `parsePatternString`: strict-tokenize the input and run the parser.  The
`.goNil` tokenizer outcome (nil list, nil error) cannot arise in strict mode
but is mapped to the empty token list, which is exactly what the Go caller
would receive; `.diverge` (a tokenizer that never returns) is mapped to
`outOfFuel`. -/
def parsePatternString (input : String) (opts : options) (cb : encodingCallback) :
    Except GoErr partList :=
  match tokenize input tokenizePolicyStrict with
  | .err e => .error e
  | .diverge => .error .outOfFuel
  | .goNil => parseLoop opts 1 ⟨[], cb, generateSegmentWildcardRegexp opts, [], "", 0, 0⟩
  | .ok tl =>
    parseLoop opts (tl.length + 1)
      ⟨tl, cb, generateSegmentWildcardRegexp opts, [], "", 0, 0⟩

/-- The regexp fragment emitted for a single part together with the names it
contributes, mirroring one iteration of the `generateRegularExpressionAndNameList`
loop.  The two `Assert` branches of the source are kept as error returns. -/
def partRegexpSegment (opts : options) (p : part) : Except GoErr (String × List String) :=
  if p.pType = .partFixedText then
    if p.modifier = .partModifierNone then
      .ok (escapeRegexpString p.value, [])
    else
      .ok ("(?:" ++ escapeRegexpString p.value ++ ")" ++ modifierToStringIfAny p.modifier, [])
  else if p.name = "" then .error .emptyPartName
  else
    let regexpValue : String :=
      match p.pType with
      | .partSegmentWildcard => generateSegmentWildcardRegexp opts
      | .partFullWildcard => fullWildcardRegexpValue
      | _ => p.value
    if p.prefix_ = "" ∧ p.suffix = "" then
      if p.modifier = .partModifierNone ∨ p.modifier = .partModifierOptional then
        .ok ("(" ++ regexpValue ++ ")" ++ modifierToStringIfAny p.modifier, [p.name])
      else
        .ok ("((?:" ++ regexpValue ++ ")" ++ modifierToStringIfAny p.modifier ++ ")", [p.name])
    else if p.modifier = .partModifierNone ∨ p.modifier = .partModifierOptional then
      .ok ("(?:" ++ escapeRegexpString p.prefix_ ++ "(" ++ regexpValue ++ ")" ++
             escapeRegexpString p.suffix ++ ")" ++ modifierToStringIfAny p.modifier, [p.name])
    else if p.modifier ≠ .partModifierZeroOrMore ∧ p.modifier ≠ .partModifierOneOrMore then
      .error .invalidModifier
    else if p.prefix_ = "" ∧ p.suffix = "" then
      .error .invalidPrefixOrSuffix
    else
      .ok ("(?:" ++ escapeRegexpString p.prefix_ ++ "((?:" ++ regexpValue ++ ")(?:" ++
             escapeRegexpString p.suffix ++ escapeRegexpString p.prefix_ ++ "(?:" ++
             regexpValue ++ "))*)" ++ escapeRegexpString p.suffix ++ ")" ++
             (if p.modifier = .partModifierZeroOrMore then "?" else ""), [p.name])

/-- The part-list fold of `generateRegularExpressionAndNameList`. -/
def generateRegexpParts (opts : options) : List part → Except GoErr (String × List String)
  | [] => .ok ("", [])
  | p :: rest =>
    match partRegexpSegment opts p with
    | .error e => .error e
    | .ok (seg, names) =>
      match generateRegexpParts opts rest with
      | .error e => .error e
      | .ok (s, moreNames) => .ok (seg ++ s, names ++ moreNames)

/-- `generateRegularExpressionAndNameList`: anchored regexp source plus the
ordered capture-group name list. -/
def generateRegularExpressionAndNameList (pl : partList) (opts : options) :
    Except GoErr (String × List String) :=
  match generateRegexpParts opts pl with
  | .error e => .error e
  | .ok (body, names) =>
    .ok ((if opts.ignoreCase then "(?i)" else "") ++ "\\A(?:" ++ body ++ ")\\z", names)

/-- The fragment emitted for a single part by `generatePatternString`.
`previousPart` and `nextPart` are the neighbouring list entries (`nil` at the
edges).  The Go source indexes `[]rune(previousPart.value)` with the byte
length `len(previousPart.value)-1` and `[]rune(part.name)` / the first rune of
`nextPart.value` without emptiness guards; an out-of-range index is a runtime
panic, modelled by the `runePanic` error. -/
def generatePatternStringSegment (opts : options) (previousPart : Option part)
    (p : part) (nextPart : Option part) : Except GoErr String :=
  if p.pType = .partFixedText then
    if p.modifier = .partModifierNone then
      .ok (escapePatternString p.value)
    else
      .ok ("\x7b" ++ escapePatternString p.value ++ "\x7d" ++ modifierToStringIfAny p.modifier)
  else
    match p.name.data.head? with
    | none => .error .runePanic
    | some nameHead =>
      let customName := ¬ nameHead.isDigit
      let needGrouping :=
        p.suffix ≠ "" ∨ (p.prefix_ ≠ "" ∧ p.prefix_ ≠ String.singleton opts.prefixCodePoint)
      match
        (if ¬ needGrouping ∧ customName ∧ p.pType = .partSegmentWildcard ∧
            p.modifier = .partModifierNone then
          match nextPart with
          | some np =>
            if np.prefix_ = "" ∧ np.suffix = "" then
              if np.pType = .partFixedText then
                match np.value.data.head? with
                | none => Except.error GoErr.runePanic
                | some c => Except.ok (isValidNameCodePoint c false)
              else
                match np.name.data.head? with
                | none => Except.error GoErr.runePanic
                | some c => Except.ok c.isDigit
            else Except.ok needGrouping
          | none => Except.ok needGrouping
        else Except.ok needGrouping : Except GoErr Bool) with
      | .error e => .error e
      | .ok needGrouping =>
      match
        (if ¬ needGrouping ∧ p.prefix_ = "" then
          match previousPart with
          | some pp =>
            if pp.pType = .partFixedText then
              match pp.value.data.get? (pp.value.utf8ByteSize - 1) with
              | none => Except.error GoErr.runePanic
              | some c => Except.ok (c = opts.prefixCodePoint)
            else Except.ok needGrouping
          | none => Except.ok needGrouping
        else Except.ok needGrouping : Except GoErr Bool) with
      | .error e => .error e
      | .ok needGrouping =>
      if p.name = "" then .error .invalidPartName
      else
        let result := (if needGrouping then "\x7b" else "")
        let result := result ++ escapePatternString p.prefix_
        let result := result ++ (if customName then ":" ++ p.name else "")
        let result := result ++
          (match p.pType with
           | .partRegexp => "(" ++ p.value ++ ")"
           | .partSegmentWildcard =>
             if ¬ customName then "(" ++ generateSegmentWildcardRegexp opts ++ ")" else ""
           | .partFullWildcard =>
             let previousTriggers : Bool :=
               match previousPart with
               | none => true
               | some pp => pp.pType = .partFixedText ∨ pp.modifier ≠ .partModifierNone
             if ¬ customName ∧ (previousTriggers ∨ needGrouping ∨ p.prefix_ ≠ "") then "*"
             else "(" ++ fullWildcardRegexpValue ++ ")"
           | .partFixedText => "")
        let result := result ++
          (if p.pType = .partSegmentWildcard ∧ customName ∧ p.suffix ≠ "" ∧
              isValidNameCodePoint (p.suffix.data.headD (Char.ofNat 0)) false then "\\" else "")
        let result := result ++ escapePatternString p.suffix
        let result := result ++ (if needGrouping then "\x7d" else "")
        .ok (result ++ modifierToStringIfAny p.modifier)

/-- The loop of `generatePatternString`, carrying the previous part. -/
def generatePatternStringLoop (opts : options) :
    Option part → List part → Except GoErr String
  | _, [] => .ok ""
  | previousPart, p :: rest =>
    match generatePatternStringSegment opts previousPart p rest.head? with
    | .error e => .error e
    | .ok seg =>
      match generatePatternStringLoop opts (some p) rest with
      | .error e => .error e
      | .ok s => .ok (seg ++ s)

/-- `generatePatternString`: reserialize a part list. -/
def generatePatternString (pl : partList) (opts : options) : Except GoErr String :=
  generatePatternStringLoop opts none pl

/-- The external regular-expression engine, as seen through the one method the
match path uses: `FindStringSubmatch` returns `nil` on no match, otherwise the
overall match followed by one entry per capture group.  `MatchString` is true
exactly when `FindStringSubmatch` is non-nil. -/
def RegexEngine := String → Option (List String)

/-- The special schemes (`specialSchemeList`). -/
def specialSchemeList : List String := ["ftp", "http", "https", "ws", "wss"]

/-- The exported `DefaultPorts` map, as an association list. -/
def DefaultPorts : List (String × String) :=
  [("http", "80"), ("https", "443"), ("ws", "80"), ("wss", "443"), ("ftp", "21")]

/-- Go map lookup `DefaultPorts[s]` (zero value for a missing key). -/
def defaultPortsGet (s : String) : String :=
  match DefaultPorts.find? (fun kv => kv.1 = s) with
  | some kv => kv.2
  | none => ""

/-- Whether `DefaultPorts` contains the key (`_, ok := DefaultPorts[s]`). -/
def defaultPortsHas (s : String) : Bool :=
  (DefaultPorts.find? (fun kv => kv.1 = s)).isSome

/-- A compiled component (the `component` struct). -/
structure component where
  patternString : String
  regularExpression : RegexEngine
  groupNameList : List String
  hasRegexpGroups : Bool

/-- `protocolComponentMatchesSpecialScheme`: the compiled protocol regexp
matches one of the special schemes. -/
def component.protocolComponentMatchesSpecialScheme (c : component) : Bool :=
  specialSchemeList.any fun scheme => (c.regularExpression scheme).isSome

/-- The `URLPatternInit` record: eight optional component strings plus an
optional base URL string. -/
structure URLPatternInit where
  Protocol : Option String := none
  Username : Option String := none
  Password : Option String := none
  Hostname : Option String := none
  Port : Option String := none
  Pathname : Option String := none
  Search : Option String := none
  Hash : Option String := none
  BaseURL : Option String := none
  deriving DecidableEq, Repr

/-- A component match result (`URLPatternComponentResult`).  The Go `Groups`
field is a `map[string]string` that is `nil` when absent; it is modelled as an
optional association list in insertion order (later entries overwrite earlier
ones, as Go map assignment does). -/
structure URLPatternComponentResult where
  input : String
  groups : Option (List (String × String))
  deriving DecidableEq, Repr

/-- Look a name up in a groups list with Go-map semantics: the last assignment
wins. -/
def groupsLookup (l : List (String × String)) (name : String) : Option String :=
  match l.reverse.find? (fun kv => kv.1 = name) with
  | some kv => some kv.2
  | none => none

/-- A match result (`URLPatternResult`). -/
structure URLPatternResult where
  inputs : List String
  initInputs : List URLPatternInit
  protocol : URLPatternComponentResult
  username : URLPatternComponentResult
  password : URLPatternComponentResult
  hostname : URLPatternComponentResult
  port : URLPatternComponentResult
  pathname : URLPatternComponentResult
  search : URLPatternComponentResult
  hash : URLPatternComponentResult

/-- The compiled URLPattern: eight components (the `URLPattern` struct). -/
structure URLPattern where
  protocol : component
  username : component
  password : component
  hostname : component
  port : component
  pathname : component
  search : component
  hash : component

/-- Accessor `Protocol()`. -/
def URLPattern.Protocol (u : URLPattern) : String := u.protocol.patternString

/-- Accessor `Username()`. -/
def URLPattern.Username (u : URLPattern) : String := u.username.patternString

/-- Accessor `Password()`. -/
def URLPattern.Password (u : URLPattern) : String := u.password.patternString

/-- Accessor `Hostname()`. -/
def URLPattern.Hostname (u : URLPattern) : String := u.hostname.patternString

/-- Accessor `Port()`. -/
def URLPattern.Port (u : URLPattern) : String := u.port.patternString

/-- Accessor `Pathname()`. -/
def URLPattern.Pathname (u : URLPattern) : String := u.pathname.patternString

/-- Accessor `Search()`. -/
def URLPattern.Search (u : URLPattern) : String := u.search.patternString

/-- Accessor `Hash()`. -/
def URLPattern.Hash (u : URLPattern) : String := u.hash.patternString

/-- `createComponentMatchResult`: build the per-component result.  The Go loop
`for index := 1; index < len(execResult)` reads
`component.groupNameList[index-1]`, which panics when the name list is
shorter than the capture count; the `getD` defaults model only the in-range
behaviour and the theorems below restrict to it. -/
def createComponentMatchResult (c : component) (input : String)
    (execResult : List String) : URLPatternComponentResult :=
  if execResult.length - 1 = 0 ∨
     (execResult.length = 2 ∧ execResult.getD 0 "" = "" ∧ execResult.getD 1 "" = "") then
    ⟨input, none⟩
  else
    ⟨input, some ((List.range (execResult.length - 1)).map fun i =>
       (c.groupNameList.getD i "", execResult.getD (i + 1) ""))⟩

/-- The `match` method of `URLPattern` (named `runMatch` because `match` is a
reserved word): run all eight regexps, return `nil` when any fails, otherwise
assemble the eight component results. -/
def URLPattern.runMatch (u : URLPattern)
    (protocol username password hostname port pathname search hash : String) :
    Option URLPatternResult :=
  let protocolExecResult := u.protocol.regularExpression protocol
  let usernameExecResult := u.username.regularExpression username
  let passwordExecResult := u.password.regularExpression password
  let hostnameExecResult := u.hostname.regularExpression hostname
  let portExecResult := u.port.regularExpression port
  let pathnameExecResult := u.pathname.regularExpression pathname
  let searchExecResult := u.search.regularExpression search
  let hashExecResult := u.hash.regularExpression hash
  match protocolExecResult, usernameExecResult, passwordExecResult, hostnameExecResult,
        portExecResult, pathnameExecResult, searchExecResult, hashExecResult with
  | some pr, some ur, some pwr, some hr, some por, some par, some sr, some har =>
    some ⟨[], [],
      createComponentMatchResult u.protocol protocol pr,
      createComponentMatchResult u.username username ur,
      createComponentMatchResult u.password password pwr,
      createComponentMatchResult u.hostname hostname hr,
      createComponentMatchResult u.port port por,
      createComponentMatchResult u.pathname pathname par,
      createComponentMatchResult u.search search sr,
      createComponentMatchResult u.hash hash har⟩
  | _, _, _, _, _, _, _, _ => none

/-- `Test`. -/
def URLPattern.TestMatch (u : URLPattern)
    (protocol username password hostname port pathname search hash : String) : Bool :=
  (u.runMatch protocol username password hostname port pathname search hash).isSome

/-- `HasRegexpGroups()`. -/
def URLPattern.HasRegexpGroups (u : URLPattern) : Bool :=
  u.protocol.hasRegexpGroups || u.username.hasRegexpGroups ||
  u.password.hasRegexpGroups || u.hostname.hasRegexpGroups ||
  u.port.hasRegexpGroups || u.pathname.hasRegexpGroups ||
  u.search.hasRegexpGroups || u.hash.hasRegexpGroups

/-- A parsed URL, as seen through the accessor methods the library calls on
the external `whatwg-url` parser's `Url` values. -/
structure Url where
  scheme : String := ""
  username : String := ""
  password : String := ""
  hostname : String := ""
  port : String := ""
  pathname : String := ""
  query : String := ""
  fragment : String := ""
  opaquePath : Bool := false
  deriving DecidableEq, Repr

/-- Parser states of the external URL parser used by the library. -/
inductive urlParseState where
  | noState
  | stateHostname
  | statePort
  | statePathStart
  | stateOpaquePath
  | stateQuery
  | stateFragment
  deriving DecidableEq, Repr

/-- The external collaborators: `urlParser` (a plain WHATWG parser),
`hostnameParser` (a canonicalizer configured with fail-on-validation-error and
default scheme http), and the regexp engine's compiler.  `basicParse input
base url state` models `BasicParser(input, base, url, state)`. -/
structure Externals where
  parse : String → Except GoErr Url
  basicParse : String → Option Url → Option Url → urlParseState → Except GoErr Url
  percentEncodeUserInfo : String → String
  newUrl : Url
  hostnameParse : String → Except GoErr Url
  hostnameBasicParse : String → Option Url → Option Url → urlParseState → Except GoErr Url
  hostnameNewUrl : Url
  regexpCompile : String → Except GoErr RegexEngine

/-- `canonicalizeProtocol`. -/
def canonicalizeProtocol (ext : Externals) (value : String) : Except GoErr String :=
  if value = "" then .ok value
  else
    match ext.parse (value ++ "://dummy.test") with
    | .error e => .error e
    | .ok dummyURL => .ok dummyURL.scheme

/-- `canonicalizeUsername`. -/
def canonicalizeUsername (ext : Externals) (value : String) : Except GoErr String :=
  if value = "" then .ok value
  else .ok (ext.percentEncodeUserInfo value)

/-- `canonicalizePassword`. -/
def canonicalizePassword (ext : Externals) (value : String) : Except GoErr String :=
  if value = "" then .ok value
  else .ok (ext.percentEncodeUserInfo value)

/-- `canonicalizeHostname` with its forbidden-character workaround.  The Go
test `hostnameValue[:1] != "["` compares the first byte; the first character
of a non-empty string equals `[` exactly when its first byte does. -/
def canonicalizeHostname (ext : Externals) (hostnameValue protocolValue : String) :
    Except GoErr String :=
  if hostnameValue = "" then .ok hostnameValue
  else
    if hostnameValue.data.headD (Char.ofNat 0) ≠ '[' ∧
       hostnameValue.data.any (fun c => c = '/' ∨ c = '?' ∨ c = '#' ∨ c = ':' ∨ c = '\\') then
      .error .invalidHostname
    else
      match (if protocolValue = "" then .ok ext.hostnameNewUrl
             else ext.hostnameParse (protocolValue ++ "://dummy.test") : Except GoErr Url) with
      | .error e => .error e
      | .ok u =>
        match ext.hostnameBasicParse hostnameValue none (some u) .stateHostname with
        | .error e => .error e
        | .ok u => .ok u.hostname

/-- `canonicalizeDomainName`. -/
def canonicalizeDomainName (ext : Externals) (value : String) : Except GoErr String :=
  canonicalizeHostname ext value "https"

/-- `canonicalizePort`, including the default-port workaround. -/
def canonicalizePort (ext : Externals) (portValue protocolValue : String) :
    Except GoErr String :=
  if portValue = "" then .ok portValue
  else
    match (if protocolValue = "" then .ok ext.hostnameNewUrl
           else ext.hostnameParse (protocolValue ++ "://dummy.test") : Except GoErr Url) with
    | .error e => .error e
    | .ok u =>
      match ext.hostnameBasicParse portValue none (some u) .statePort with
      | .error e => .error e
      | .ok u =>
        let p := u.port
        if p ≠ portValue then
          if defaultPortsHas protocolValue ∧ portValue = defaultPortsGet protocolValue then .ok p
          else .error .invalidPort
        else .ok p

/-- `canonicalizePathname` with the slash-dash prepending trick.  The final
`result[2:]` strips the two prepended ASCII bytes, i.e. two characters. -/
def canonicalizePathname (ext : Externals) (value : String) : Except GoErr String :=
  if value = "" then .ok value
  else
    let leadingSlash := value.data.headD (Char.ofNat 0) = '/'
    let modifiedValue := (if ¬ leadingSlash then "/-" else "") ++ value
    match ext.basicParse modifiedValue none (some ext.newUrl) .statePathStart with
    | .error e => .error e
    | .ok u =>
      let result := u.pathname
      .ok (if ¬ leadingSlash then String.mk (result.data.drop 2) else result)

/-- `canonicalizeOpaquePathname`. -/
def canonicalizeOpaquePathname (ext : Externals) (value : String) : Except GoErr String :=
  if value = "" then .ok value
  else
    match ext.basicParse value none (some ext.newUrl) .stateOpaquePath with
    | .error e => .error e
    | .ok u => .ok u.pathname

/-- `canonicalizeSearch`. -/
def canonicalizeSearch (ext : Externals) (value : String) : Except GoErr String :=
  if value = "" then .ok value
  else
    match ext.basicParse value none (some ext.newUrl) .stateQuery with
    | .error e => .error e
    | .ok u => .ok u.query

/-- `canonicalizeHash`.  Unlike every other canonicalizer the error branch
returns `"", nil`: the parse failure is swallowed. -/
def canonicalizeHash (ext : Externals) (value : String) : Except GoErr String :=
  if value = "" then .ok value
  else
    match ext.basicParse value none (some ext.newUrl) .stateFragment with
    | .error _ => .ok ""
    | .ok u => .ok u.fragment

/-- `canonicalizeIPv6Hostname`: pure, lowercases and checks the alphabet.
The Go loop builds the result incrementally but returns the error before
returning any result, so erroring when any character is invalid is equivalent.
`unicode.ASCII_Hex_Digit` contains exactly the ASCII hex digits, and every
accepted character is ASCII, so `Char.toLower` agrees with `unicode.ToLower`
on all characters that are written out. -/
def canonicalizeIPv6Hostname (value : String) : Except GoErr String :=
  if value.data.any (fun c =>
       c ≠ '[' ∧ c ≠ ']' ∧ c ≠ ':' ∧ ¬ (c.isDigit ∨ ('a' ≤ c ∧ c ≤ 'f') ∨ ('A' ≤ c ∧ c ≤ 'F'))) then
    .error .invalidIPv6Hostname
  else
    .ok (String.mk (value.data.map Char.toLower))

/-- `processBaseURLString`: pattern-escape base-URL-derived strings when
processing a pattern. -/
def processBaseURLString (input uType : String) : String :=
  if uType ≠ "pattern" then input
  else escapePatternString input

/-- `processProtocolForInit`.  `strings.TrimSuffix(value, ":")` removes at
most one trailing colon, which for a one-character ASCII suffix is the
character-level operation written here. -/
def processProtocolForInit (ext : Externals) (value pType : String) : Except GoErr String :=
  let strippedValue := if value.data.getLast? = some ':' then String.mk value.data.dropLast else value
  if pType = "pattern" then .ok strippedValue
  else canonicalizeProtocol ext strippedValue

/-- `processUsernameForInit`. -/
def processUsernameForInit (ext : Externals) (value uType : String) : Except GoErr String :=
  if uType = "pattern" then .ok value
  else canonicalizeUsername ext value

/-- `processPasswordForInit`. -/
def processPasswordForInit (ext : Externals) (value uType : String) : Except GoErr String :=
  if uType = "pattern" then .ok value
  else canonicalizePassword ext value

/-- `processHostnameForInit`. -/
def processHostnameForInit (ext : Externals) (value protocolValue uType : String) :
    Except GoErr String :=
  if uType = "pattern" then .ok value
  else if protocolValue = "" then canonicalizeDomainName ext value
  else if specialSchemeList.any (fun s => protocolValue = s) then
    canonicalizeDomainName ext value
  else canonicalizeHostname ext value protocolValue

/-- `processPortForInit`. -/
def processPortForInit (ext : Externals) (portValue protocolValue pType : String) :
    Except GoErr String :=
  if pType = "pattern" then .ok portValue
  else canonicalizePort ext portValue protocolValue

/-- `processPathnameForInit`. -/
def processPathnameForInit (ext : Externals) (pathnameValue protocolValue ptype : String) :
    Except GoErr String :=
  if ptype = "pattern" then .ok pathnameValue
  else if protocolValue = "" then canonicalizePathname ext pathnameValue
  else if specialSchemeList.any (fun ss => protocolValue = ss) then
    canonicalizePathname ext pathnameValue
  else canonicalizeOpaquePathname ext pathnameValue

/-- `processSearchForInit`: `strings.TrimPrefix(value, "?")` removes at most
one leading question mark. -/
def processSearchForInit (ext : Externals) (value sType : String) : Except GoErr String :=
  let strippedValue := if value.data.take 1 = ['?'] then String.mk (value.data.drop 1) else value
  if sType = "pattern" then .ok strippedValue
  else canonicalizeSearch ext strippedValue

/-- `processHashForInit`: `strings.TrimPrefix(value, "#")` removes at most
one leading hash sign.  In the url branch the Go source passes the
unstripped `value` to the canonicalizer. -/
def processHashForInit (ext : Externals) (value hType : String) : Except GoErr String :=
  let strippedValue := if value.data.take 1 = ['#'] then String.mk (value.data.drop 1) else value
  if hType = "pattern" then .ok strippedValue
  else canonicalizeHash ext value

/-- `isAbsolutePathname`.  Go tests the first byte `input[0] == '/'`; the
first byte of a non-empty string is `/` exactly when its first character is.
`strings.HasPrefix` with a two-ASCII-character prefix holds exactly when the
first two characters match, which is what the `take 2` comparisons model. -/
def isAbsolutePathname (input pType : String) : Bool :=
  if input = "" then false
  else if input.data.headD (Char.ofNat 0) = '/' then true
  else if pType = "url" then false
  else input.data.take 2 = ['\\', '/'] || input.data.take 2 = ['\x7b', '/']

/-- Rune index of the last `/` in a string (`strings.LastIndex(s, "/")`
returns the byte index; slicing just after a `/` yields the same substring
whether positions are counted in bytes or in runes, so a rune index is an
equivalent model). -/
def lastSlashIndex (s : String) : Option Nat :=
  (s.data.reverse.findIdx? (fun c => c = '/')).map (fun i => s.data.length - 1 - i)

/-- The relative-pathname resolution step inside `URLPatternInit.process`: if
a base URL exists, its path is not opaque and the supplied pathname is not
absolute, prepend the processed base pathname up to and including its final
slash — when such a slash exists (`slashIndex != -1`). -/
def resolveRelativePathname (baseURL : Option Url) (iType pathname : String) : String :=
  match baseURL with
  | none => pathname
  | some b =>
    if ¬ b.opaquePath ∧ ¬ isAbsolutePathname pathname iType then
      let baseURLPath := processBaseURLString b.pathname iType
      match lastSlashIndex baseURLPath with
      | some slashIndex => String.mk (baseURLPath.data.take (slashIndex + 1)) ++ pathname
      | none => pathname
    else pathname


/-- `URLPatternInit.process`: normalise an init record.  The eight trailing
arguments are the caller-supplied defaults (Go passes string pointers that
seed the result record; `New` passes nils, `ExecInit` passes empty strings). -/
def URLPatternInit.process (init : URLPatternInit) (ext : Externals) (iType : String)
    (protocol username password hostname port pathname search hash : Option String) :
    Except GoErr URLPatternInit := do
  let result : URLPatternInit :=
    ⟨protocol, username, password, hostname, port, pathname, search, hash, none⟩
  let (baseURL, result) ←
    (match init.BaseURL with
     | none => .ok ((none : Option Url), result)
     | some baseURLString =>
       match ext.parse baseURLString with
       | .error e => .error e
       | .ok baseURL =>
         let result := if init.Protocol = none then
             { result with Protocol := some (processBaseURLString baseURL.scheme iType) }
           else result
         let result := if iType ≠ "pattern" ∧ init.Protocol = none ∧ init.Hostname = none ∧
             init.Port = none ∧ init.Username = none then
             { result with Username := some (processBaseURLString baseURL.username iType) }
           else result
         let result := if iType ≠ "pattern" ∧ init.Protocol = none ∧ init.Hostname = none ∧
             init.Port = none ∧ init.Username = none ∧ init.Password = none then
             { result with Password := some (processBaseURLString baseURL.password iType) }
           else result
         let result := if init.Protocol = none ∧ init.Hostname = none then
             { result with Hostname := some (processBaseURLString baseURL.hostname iType) }
           else result
         let result := if init.Protocol = none ∧ init.Hostname = none ∧ init.Port = none then
             { result with Port := some baseURL.port }
           else result
         let result := if init.Protocol = none ∧ init.Hostname = none ∧ init.Port = none ∧
             init.Pathname = none then
             { result with Pathname := some (processBaseURLString baseURL.pathname iType) }
           else result
         let result := if init.Protocol = none ∧ init.Hostname = none ∧ init.Port = none ∧
             init.Pathname = none ∧ init.Search = none then
             { result with Search := some (processBaseURLString baseURL.query iType) }
           else result
         let result := if init.Protocol = none ∧ init.Hostname = none ∧ init.Port = none ∧
             init.Pathname = none ∧ init.Search = none ∧ init.Hash = none then
             { result with Hash := some (processBaseURLString baseURL.fragment iType) }
           else result
         .ok (some baseURL, result) : Except GoErr (Option Url × URLPatternInit))
  let result ← (match init.Protocol with
    | none => .ok result
    | some v => do
      let p ← processProtocolForInit ext v iType
      .ok { result with Protocol := some p } : Except GoErr URLPatternInit)
  let result ← (match init.Username with
    | none => .ok result
    | some v => do
      let u ← processUsernameForInit ext v iType
      .ok { result with Username := some u } : Except GoErr URLPatternInit)
  let result ← (match init.Password with
    | none => .ok result
    | some v => do
      let p ← processPasswordForInit ext v iType
      .ok { result with Password := some p } : Except GoErr URLPatternInit)
  let proto := result.Protocol.getD ""
  let result ← (match init.Hostname with
    | none => .ok result
    | some v => do
      let h ← processHostnameForInit ext v proto iType
      .ok { result with Hostname := some h } : Except GoErr URLPatternInit)
  let result ← (match init.Port with
    | none => .ok result
    | some v => do
      let p ← processPortForInit ext v proto iType
      .ok { result with Port := some p } : Except GoErr URLPatternInit)
  let result ← (match init.Pathname with
    | none => .ok result
    | some v => do
      let joined := resolveRelativePathname baseURL iType v
      let p ← processPathnameForInit ext joined proto iType
      .ok { result with Pathname := some p } : Except GoErr URLPatternInit)
  let result ← (match init.Search with
    | none => .ok result
    | some v => do
      let s ← processSearchForInit ext v iType
      .ok { result with Search := some s } : Except GoErr URLPatternInit)
  let result ← (match init.Hash with
    | none => .ok result
    | some v => do
      let h ← processHashForInit ext v iType
      .ok { result with Hash := some h } : Except GoErr URLPatternInit)
  .ok result

/-- `hostnamePatternIsIPv6Address`: `len(input)` is the byte length, and the
pattern is an IPv6 address pattern when it starts with an opening bracket,
optionally behind `{` or `\`.  The Go access `i[1]` is only reached when the
byte length is at least two and `i[0]` is an ASCII bracket/brace/backslash,
which forces a second rune to exist, so the `getD` default is never seen. -/
def hostnamePatternIsIPv6Address (input : String) : Bool :=
  if input.utf8ByteSize < 2 then false
  else
    let i := input.data
    if i.getD 0 (Char.ofNat 0) = '[' then true
    else if i.getD 0 (Char.ofNat 0) = '\x7b' ∧ i.getD 1 (Char.ofNat 0) = '[' then true
    else if i.getD 0 (Char.ofNat 0) = '\\' ∧ i.getD 1 (Char.ofNat 0) = '[' then true
    else false

/-- `compileComponent`: pattern string → part list → regexp + names →
compiled engine value → canonical pattern string → component. -/
def compileComponent (ext : Externals) (input : String) (cb : encodingCallback)
    (opts : options) : Except GoErr component := do
  let pl ← parsePatternString input opts cb
  let (regularExpressionString, nameList) ← generateRegularExpressionAndNameList pl opts
  let regularExpression ← ext.regexpCompile regularExpressionString
  let patternString ← generatePatternString pl opts
  let hasRegexpGroups := pl.any (fun p => p.pType = .partRegexp)
  .ok ⟨patternString, regularExpression, nameList, hasRegexpGroups⟩

/-- The public options record (`Options`). -/
structure Options where
  IgnoreCase : Bool := false
  deriving DecidableEq, Repr

/-- Apply the star defaults of `URLPatternInit.New`: every component still
unset becomes `"*"` (the base URL field is untouched). -/
def starDefaults (pi : URLPatternInit) : URLPatternInit :=
  { pi with
    Protocol := some (pi.Protocol.getD "*"),
    Username := some (pi.Username.getD "*"),
    Password := some (pi.Password.getD "*"),
    Hostname := some (pi.Hostname.getD "*"),
    Port := some (pi.Port.getD "*"),
    Pathname := some (pi.Pathname.getD "*"),
    Search := some (pi.Search.getD "*"),
    Hash := some (pi.Hash.getD "*") }

/-- The special-scheme default-port rule of `URLPatternInit.New`: walk the
special scheme list and, at the first scheme equal to the processed protocol
whose default port equals the processed port, set the port to the empty
string and stop. -/
def applyDefaultPortRuleLoop : List String → URLPatternInit → URLPatternInit
  | [], pi => pi
  | s :: rest, pi =>
    if pi.Protocol = some s ∧ pi.Port = some (defaultPortsGet s) then
      { pi with Port := some "" }
    else applyDefaultPortRuleLoop rest pi

/-- The default-port rule over the full special scheme list. -/
def applyDefaultPortRule (pi : URLPatternInit) : URLPatternInit :=
  applyDefaultPortRuleLoop specialSchemeList pi

/-- Which canonicalizer the hostname component is compiled with inside
`URLPatternInit.New`. -/
inductive hostnameCanonicalizerChoice where
  | ipv6
  | domain
  | nonSpecial
  deriving DecidableEq, Repr

/-- The hostname branch condition of `URLPatternInit.New`: IPv6 patterns use
the IPv6 canonicalizer, special-scheme (or `*`) protocols use the domain
canonicalizer, anything else the plain hostname canonicalizer. -/
def hostnameCanonicalizerFor (hostname : String) (protocolComponent : component)
    (processedProtocol : String) : hostnameCanonicalizerChoice :=
  if hostnamePatternIsIPv6Address hostname then .ipv6
  else if protocolComponent.protocolComponentMatchesSpecialScheme ∨
          processedProtocol = "*" then .domain
  else .nonSpecial

/-- `URLPatternInit.New`: process the init with type `pattern`, fill star
defaults, apply the default-port rule, and compile the eight components. -/
def URLPatternInit.New (init : URLPatternInit) (opt : Options) (ext : Externals) :
    Except GoErr URLPattern := do
  let processedInit ← init.process ext "pattern" none none none none none none none none
  let processedInit := starDefaults processedInit
  let processedInit := applyDefaultPortRule processedInit
  let protocol ← compileComponent ext (processedInit.Protocol.getD "")
    (canonicalizeProtocol ext) defaultOptions
  let username ← compileComponent ext (processedInit.Username.getD "")
    (canonicalizeUsername ext) defaultOptions
  let password ← compileComponent ext (processedInit.Password.getD "")
    (canonicalizePassword ext) defaultOptions
  let hostname ←
    (match hostnameCanonicalizerFor (processedInit.Hostname.getD "") protocol
        (processedInit.Protocol.getD "") with
     | .ipv6 => compileComponent ext (processedInit.Hostname.getD "")
         (fun s => canonicalizeIPv6Hostname s) hostnameOptions
     | .domain => compileComponent ext (processedInit.Hostname.getD "")
         (canonicalizeDomainName ext) hostnameOptions
     | .nonSpecial => compileComponent ext (processedInit.Hostname.getD "")
         (fun s => canonicalizeHostname ext s "") hostnameOptions)
  let port ← compileComponent ext (processedInit.Port.getD "")
    (fun s => canonicalizePort ext s "") defaultOptions
  let compileOptions : options := { defaultOptions with ignoreCase := opt.IgnoreCase }
  let pathnameOptions : options := ⟨'/', '/', false⟩
  let pathname ←
    (if protocol.protocolComponentMatchesSpecialScheme then
      compileComponent ext (processedInit.Pathname.getD "")
        (canonicalizePathname ext) { pathnameOptions with ignoreCase := opt.IgnoreCase }
    else
      compileComponent ext (processedInit.Pathname.getD "")
        (canonicalizeOpaquePathname ext) compileOptions)
  let search ← compileComponent ext (processedInit.Search.getD "")
    (canonicalizeSearch ext) compileOptions
  let hash ← compileComponent ext (processedInit.Hash.getD "")
    (canonicalizeHash ext) compileOptions
  .ok ⟨protocol, username, password, hostname, port, pathname, search, hash⟩

/-- The tail of `Exec` after base-URL handling. -/
def URLPattern.execWith (u : URLPattern) (ext : Externals) (input : String)
    (baseURL : Option Url) (inputs : List String) : Option URLPatternResult :=
  match ext.basicParse input baseURL none .noState with
  | .error _ => none
  | .ok ur =>
    match u.runMatch ur.scheme ur.username ur.password ur.hostname ur.port
        ur.pathname ur.query ur.fragment with
    | none => none
    | some r => some { r with inputs := inputs }

/-- `Exec`: parse the base URL (if non-empty) and the input, extract the
eight component strings and match. -/
def URLPattern.Exec (u : URLPattern) (ext : Externals) (input baseURLString : String) :
    Option URLPatternResult :=
  if baseURLString ≠ "" then
    match ext.parse baseURLString with
    | .error _ => none
    | .ok baseURL => u.execWith ext input (some baseURL) [input, baseURLString]
  else u.execWith ext input none [input]

/-- `ExecInit`: process the init with type `url` and match. -/
def URLPattern.ExecInit (u : URLPattern) (ext : Externals) (input : URLPatternInit) :
    Option URLPatternResult :=
  match input.process ext "url" (some "") (some "") (some "") (some "") (some "")
      (some "") (some "") (some "") with
  | .error _ => none
  | .ok applyResult =>
    match u.runMatch (applyResult.Protocol.getD "") (applyResult.Username.getD "")
        (applyResult.Password.getD "") (applyResult.Hostname.getD "")
        (applyResult.Port.getD "") (applyResult.Pathname.getD "")
        (applyResult.Search.getD "") (applyResult.Hash.getD "") with
    | none => none
    | some r => some { r with initInputs := [input] }

/-- `Test`. -/
def URLPattern.Test (u : URLPattern) (ext : Externals) (input baseURL : String) : Bool :=
  (u.Exec ext input baseURL).isSome

/-- `TestInit`. -/
def URLPattern.TestInit (u : URLPattern) (ext : Externals) (input : URLPatternInit) : Bool :=
  (u.ExecInit ext input).isSome

/-- Scanner states for counting capture groups in regexp source.  Modelled
from the spec: the regular-expression engine is an external collaborator
("a regular-expression engine supporting anchored matches,
named-or-positional capture groups"); this state machine implements the Go
`regexp` syntax rules that determine `NumSubexp`: an unescaped `(` outside a
character class opens a group; the group is non-capturing when followed by
`?`, except for the named forms `(?P<name>` and `(?<name>`, which are
capturing. -/
inductive rxScanState where
  | normal
  | escaped
  | inClass
  | classEscaped
  | afterParen
  | afterQ
  | afterQP
  deriving DecidableEq, Repr

/-- Transition out of the `normal` state. -/
def rxNormalNext (c : Char) : rxScanState :=
  if c = '\\' then .escaped
  else if c = '[' then .inClass
  else if c = '(' then .afterParen
  else .normal

/-- One scanner step: next state and the number of capture groups recognised
at this step. -/
def rxStep : rxScanState → Char → rxScanState × Nat
  | .normal, c => (rxNormalNext c, 0)
  | .escaped, _ => (.normal, 0)
  | .inClass, c =>
    (if c = '\\' then .classEscaped else if c = ']' then .normal else .inClass, 0)
  | .classEscaped, _ => (.inClass, 0)
  | .afterParen, c => if c = '?' then (.afterQ, 0) else (rxNormalNext c, 1)
  | .afterQ, c =>
    if c = 'P' then (.afterQP, 0)
    else if c = '<' then (.normal, 1)
    else (rxNormalNext c, 0)
  | .afterQP, c => if c = '<' then (.normal, 1) else (rxNormalNext c, 0)

/-- Run the scanner over a character sequence, returning the final state and
the number of capture groups found. -/
def rxScan : rxScanState → List Char → rxScanState × Nat
  | s, [] => (s, 0)
  | s, c :: rest =>
    let step := rxStep s c
    let tail := rxScan step.1 rest
    (tail.1, step.2 + tail.2)

/-- Number of capture groups of a regexp source string (the engine's
`NumSubexp`). -/
def captureGroupCount (s : String) : Nat := (rxScan .normal s.data).2

/-! Helper values and claim-side definitions used by the theorems. -/

/-- An identity encoding callback (a legal `encodingCallback` value). -/
def pureCallback : encodingCallback := fun s => .ok s

/-- A concrete external world in which every parse succeeds with an empty URL
record and the regexp engine accepts everything (used only to witness
theorems at concrete inputs). -/
def trivialExternals : Externals where
  parse := fun _ => .ok {}
  basicParse := fun _ _ _ _ => .ok {}
  percentEncodeUserInfo := fun s => s
  newUrl := {}
  hostnameParse := fun _ => .ok {}
  hostnameBasicParse := fun _ _ _ _ => .ok {}
  hostnameNewUrl := {}
  regexpCompile := fun _ => .ok (fun s => some [s])

/-- A concrete external world in which every basic parse fails (used only to
witness theorems at concrete inputs). -/
def failingExternals : Externals where
  parse := fun _ => .error (.external 0)
  basicParse := fun _ _ _ _ => .error (.external 0)
  percentEncodeUserInfo := fun s => s
  newUrl := {}
  hostnameParse := fun _ => .error (.external 0)
  hostnameBasicParse := fun _ _ _ _ => .error (.external 0)
  hostnameNewUrl := {}
  regexpCompile := fun _ => .ok (fun s => some [s])

/-- The prefix of a string up to and including its final `/`, or the empty
string when it contains none. -/
def upToIncludingLastSlash (s : String) : String :=
  match lastSlashIndex s with
  | some i => String.mk (s.data.take (i + 1))
  | none => ""

/-- Absoluteness of a pathname exactly as claim C8 words it: it begins with
`/`, or with `\/` or `{/` when the processing type is `pattern`. -/
def c8ClaimAbsolute (iType pathname : String) : Bool :=
  pathname.data.take 1 = ['/'] ||
  (iType = "pattern" && (pathname.data.take 2 = ['\\', '/'] || pathname.data.take 2 = ['\x7b', '/']))

/-- The pathname-joining rule exactly as claim C8 states it: the supplied
pathname is joined with the base URL's pathname exactly when a base URL
exists, the base URL's pathname is not opaque, and the supplied pathname is
not absolute; the joined value is the base URL's pathname up to and including
its final `/` concatenated with the supplied pathname. -/
def c8ClaimJoin (baseURL : Option Url) (iType pathname : String) : String :=
  match baseURL with
  | none => pathname
  | some b =>
    if ¬ b.opaquePath ∧ ¬ c8ClaimAbsolute iType pathname then
      upToIncludingLastSlash b.pathname ++ pathname
    else pathname

/-- The amended pathname-joining rule: as claim C8, but the base pathname is
first processed (pattern-escaped when the processing type is `pattern`) and
the join additionally requires that processed base pathname to contain a
`/`. -/
def c8AmendedJoin (baseURL : Option Url) (iType pathname : String) : String :=
  match baseURL with
  | none => pathname
  | some b =>
    let processedBase := processBaseURLString b.pathname iType
    if ¬ b.opaquePath ∧ ¬ c8ClaimAbsolute iType pathname ∧
       '/' ∈ processedBase.data then
      upToIncludingLastSlash processedBase ++ pathname
    else pathname

/-- A custom regexp value is safe for capture-group counting when it is
non-empty, does not begin with `?`, and scans from the neutral state back to
the neutral state while contributing no capture group of its own. -/
def regexpValueSafe (v : String) : Prop :=
  v ≠ "" ∧ v.data.head? ≠ some '?' ∧ rxScan .normal v.data = (.normal, 0)

/-- The amended name-uniqueness predicate of claim C6: two parts may carry
the same name only when that name is empty (all fixed-text parts share the
empty name). -/
def namePred (a b : part) : Prop := a.name = b.name → a.name = ""

/-! Supporting lemmas (shared across theorems). -/

/-- Looking a name up after appending one binding: Go map assignment
semantics, the appended binding wins when its key matches. -/
lemma groupsLookup_snoc (x : String × String) (l : List (String × String)) (name : String) :
    groupsLookup (l ++ [x]) name =
      if x.1 = name then some x.2 else groupsLookup l name := by
  unfold groupsLookup
  rw [List.reverse_append]
  simp only [List.reverse_singleton, List.singleton_append, List.find?]
  by_cases h : x.1 = name
  · simp [h]
  · simp [h]

/-- Looking up the `i`-th name in the association list built from a prefix of
a duplicate-free name list yields the `i`-th value. -/
lemma groupsLookup_range_map (names : List String) (vals : Nat → String) (n : Nat)
    (hn : n ≤ names.length) (hnd : names.Nodup) (i : Nat) (hi : i < n) :
    groupsLookup ((List.range n).map (fun j => (names.getD j "", vals j))) (names.getD i "") =
      some (vals i) := by
  induction n with
  | zero => omega
  | succ n ih =>
    rw [List.range_succ, List.map_append]
    simp only [List.map_cons, List.map_nil]
    rw [groupsLookup_snoc]
    by_cases hin : i = n
    · subst hin
      simp
    · have hi' : i < n := by omega
      have hkey : names.getD n "" ≠ names.getD i "" := by
        intro heq
        have h1 : n < names.length := by omega
        have h2 : i < names.length := by omega
        rw [List.getD_eq_getElem names "" h1, List.getD_eq_getElem names "" h2] at heq
        exact hin ((hnd.getElem_inj_iff).mp heq.symm)
      simp only [hkey, if_false]
      exact ih (by omega) hi'

/-- The Go implementation's absoluteness test agrees with the claim-side
wording for the two processing types in use. -/
lemma isAbsolutePathname_eq_claim (iType pathname : String)
    (hty : iType = "pattern" ∨ iType = "url") :
    isAbsolutePathname pathname iType = c8ClaimAbsolute iType pathname := by
  unfold isAbsolutePathname c8ClaimAbsolute
  cases hd : pathname.data with
  | nil =>
    have hemp : pathname = "" := by
      cases pathname with
      | mk d => simp at hd; simp [hd]
    subst hemp
    rcases hty with h | h <;> subst h <;> decide
  | cons c rest =>
    have hne : pathname ≠ "" := by
      cases pathname with
      | mk d => simp at hd; simp [hd, String.ext_iff]
    by_cases hc : c = '/'
    · subst hc
      simp [hne, hd]
    · rcases hty with h | h <;> subst h
      · simp [hne, hd, hc]
      · simp [hne, hd, hc]

/-- `lastSlashIndex` returns nothing exactly when the string contains no
slash. -/
lemma lastSlashIndex_none_iff (s : String) :
    lastSlashIndex s = none ↔ '/' ∉ s.data := by
  unfold lastSlashIndex
  simp only [Option.map_eq_none', List.findIdx?_eq_none_iff, List.mem_reverse]
  constructor
  · intro h hmem
    have := h '/' hmem
    simp at this
  · intro h x hx
    simp only [decide_eq_false_iff_not]
    intro heq
    exact h (heq ▸ hx)

/-- Compiling the empty pattern string yields the empty canonical pattern
string, an empty name list and no regexp groups, whatever the encoding
callback; only the engine's acceptance of the trivial anchored regexp can
still fail. -/
lemma compileComponent_empty (ext : Externals) (cb : encodingCallback) :
    compileComponent ext "" cb defaultOptions =
      (ext.regexpCompile "\\A(?:)\\z").map
        (fun re => ⟨"", re, [], false⟩) := by
  unfold compileComponent
  rw [show parsePatternString "" defaultOptions cb = .ok ([] : partList) from rfl]
  simp only [bind, Except.bind]
  rw [show generateRegularExpressionAndNameList [] defaultOptions =
        .ok ("\\A(?:)\\z", ([] : List String)) from rfl]
  dsimp only
  cases h : ext.regexpCompile "\\A(?:)\\z" with
  | error e => rfl
  | ok re => rfl

/-- When the processed protocol is a special scheme and the processed port is
its default port, the default-port loop rewrites the port to the empty string
and leaves every other field unchanged. -/
lemma applyDefaultPortRule_hit (pi : URLPatternInit) (scheme : String)
    (hs : scheme ∈ specialSchemeList)
    (hprot : pi.Protocol = some scheme)
    (hport : pi.Port = some (defaultPortsGet scheme)) :
    applyDefaultPortRule pi = { pi with Port := some "" } := by
  unfold applyDefaultPortRule
  fin_cases hs <;>
    simp_all [applyDefaultPortRuleLoop, defaultPortsGet, DefaultPorts]


/-! Claim theorems. -/

/-- C1: for every compiled URLPattern and every input whose URL parse
succeeds, `match` (and hence `Exec`) returns no-match exactly when at least
one of the eight component regular expressions fails to find a match on its
component string; when all eight match, the result contains all eight
component results. -/
theorem c1_match_no_match_iff (u : URLPattern) (p un pw h po pa s ha : String) :
    (u.runMatch p un pw h po pa s ha = none ↔
      u.protocol.regularExpression p = none ∨
      u.username.regularExpression un = none ∨
      u.password.regularExpression pw = none ∨
      u.hostname.regularExpression h = none ∨
      u.port.regularExpression po = none ∨
      u.pathname.regularExpression pa = none ∨
      u.search.regularExpression s = none ∨
      u.hash.regularExpression ha = none) ∧
    (∀ pr ur pwr hr por par sr har,
      u.protocol.regularExpression p = some pr →
      u.username.regularExpression un = some ur →
      u.password.regularExpression pw = some pwr →
      u.hostname.regularExpression h = some hr →
      u.port.regularExpression po = some por →
      u.pathname.regularExpression pa = some par →
      u.search.regularExpression s = some sr →
      u.hash.regularExpression ha = some har →
      u.runMatch p un pw h po pa s ha = some ⟨[], [],
        createComponentMatchResult u.protocol p pr,
        createComponentMatchResult u.username un ur,
        createComponentMatchResult u.password pw pwr,
        createComponentMatchResult u.hostname h hr,
        createComponentMatchResult u.port po por,
        createComponentMatchResult u.pathname pa par,
        createComponentMatchResult u.search s sr,
        createComponentMatchResult u.hash ha har⟩) ∧
    (∀ (ext : Externals) (input : String) (url : Url),
      ext.basicParse input none none .noState = .ok url →
      (u.Exec ext input "" = none ↔
        u.runMatch url.scheme url.username url.password url.hostname url.port
          url.pathname url.query url.fragment = none)) := by
  refine ⟨?_, ?_, ?_⟩
  · unfold URLPattern.runMatch
    cases u.protocol.regularExpression p <;>
    cases u.username.regularExpression un <;>
    cases u.password.regularExpression pw <;>
    cases u.hostname.regularExpression h <;>
    cases u.port.regularExpression po <;>
    cases u.pathname.regularExpression pa <;>
    cases u.search.regularExpression s <;>
    cases u.hash.regularExpression ha <;>
    simp
  · intro pr ur pwr hr por par sr har h1 h2 h3 h4 h5 h6 h7 h8
    unfold URLPattern.runMatch
    rw [h1, h2, h3, h4, h5, h6, h7, h8]
  · intro ext input url hbp
    unfold URLPattern.Exec URLPattern.execWith
    simp only [ne_eq, not_true_eq_false, if_false, hbp]
    cases hm : u.runMatch url.scheme url.username url.password url.hostname url.port
        url.pathname url.query url.fragment with
    | none => simp [hm]
    | some r => simp [hm]

/-- Witness for C1 at a concrete pattern and input: a URLPattern whose eight
engines accept everything matches, and Exec agrees with match under a
successful parse. -/
theorem c1_match_no_match_iff_witness :
    (URLPattern.mk ⟨"", fun s => some [s], [], false⟩ ⟨"", fun s => some [s], [], false⟩
        ⟨"", fun s => some [s], [], false⟩ ⟨"", fun s => some [s], [], false⟩
        ⟨"", fun s => some [s], [], false⟩ ⟨"", fun s => some [s], [], false⟩
        ⟨"", fun s => some [s], [], false⟩ ⟨"", fun s => some [s], [], false⟩).Exec
        trivialExternals "x" "" = none ↔
    (URLPattern.mk ⟨"", fun s => some [s], [], false⟩ ⟨"", fun s => some [s], [], false⟩
        ⟨"", fun s => some [s], [], false⟩ ⟨"", fun s => some [s], [], false⟩
        ⟨"", fun s => some [s], [], false⟩ ⟨"", fun s => some [s], [], false⟩
        ⟨"", fun s => some [s], [], false⟩ ⟨"", fun s => some [s], [], false⟩).runMatch
        "" "" "" "" "" "" "" "" = none :=
  (c1_match_no_match_iff _ "" "" "" "" "" "" "" "").2.2 trivialExternals "x" {} rfl

/-- C2: the part list parsed from the pattern `é*` (a fixed-text part whose
value contains a non-ASCII character followed by an anonymous full wildcard)
makes `generatePatternString` index the rune slice of the previous part's
value with its byte length, which is out of range: the Go code panics instead
of producing a canonical pattern string that re-parses to an equivalent part
list. -/
theorem c2_generate_pattern_string_panic :
    parsePatternString "é*" defaultOptions pureCallback =
      .ok [⟨.partFixedText, "é", .partModifierNone, "", "", ""⟩,
           ⟨.partFullWildcard, "", .partModifierNone, "0", "", ""⟩] ∧
    generatePatternString
      [⟨.partFixedText, "é", .partModifierNone, "", "", ""⟩,
       ⟨.partFullWildcard, "", .partModifierNone, "0", "", ""⟩] defaultOptions =
      .error .runePanic ∧
    generatePatternStringSegment defaultOptions
      (some ⟨.partFixedText, "é", .partModifierNone, "", "", ""⟩)
      ⟨.partFullWildcard, "", .partModifierNone, "0", "", ""⟩ none = .error .runePanic :=
  ⟨rfl, rfl, rfl⟩

/-- C5: tokenizing a lone backslash under the lenient policy returns the Go
nil token list with a nil error instead of an `InvalidChar` token followed by
`End`; under the strict policy the tokenizer loops forever instead of
failing.  Other lenient errors (such as a bare `:`) do produce an
`InvalidChar` token and continue, and a non-final backslash escapes
normally. -/
theorem c5_tokenize_trailing_backslash :
    tokenize "\\" tokenizePolicyLenient = .goNil ∧
    (∀ fuel t, t.input = ['\\'] → t.policy = tokenizePolicyStrict → t.index = 0 →
      tokenizeLoop fuel t 1 = .diverge) ∧
    tokenize "\\a" tokenizePolicyLenient =
      .ok [⟨.tokenEscapedChar, 0, "a"⟩, ⟨.tokenEnd, 2, ""⟩] ∧
    tokenize ":" tokenizePolicyLenient =
      .ok [⟨.tokenInvalidChar, 0, ":"⟩, ⟨.tokenEnd, 1, ""⟩] := by
  refine ⟨rfl, ?_, rfl, rfl⟩
  intro fuel
  induction fuel with
  | zero => intro t _ _ _; rfl
  | succ n ih =>
    intro t ht hp hi
    simp only [tokenizeLoop, tokenizer.seekAndGetNextCodePoint, tokenizer.getNextCodePoint,
      ht, hp, hi, tokenizer.processTokenizingError, tokenizePolicyStrict]
    norm_num
    exact ih _ rfl rfl rfl

/-- Witness for C5's strict-mode divergence at a concrete fuel and state. -/
theorem c5_tokenize_trailing_backslash_witness :
    tokenizeLoop 5 ⟨['\\'], tokenizePolicyStrict, [], 0, 0, Char.ofNat 0⟩ 1 = .diverge :=
  c5_tokenize_trailing_backslash.2.1 5 _ rfl rfl rfl

/-- C7: the component match result carries the raw input; its groups mapping
is absent exactly when the match has no capture entries or consists of a
single capture with both the overall match and that capture empty; in every
other case the groups mapping sends each name of the (duplicate-free) group
name list to the corresponding captured substring. -/
theorem c7_groups_omitted_iff (c : component) (input : String) (execResult : List String)
    (_hne : execResult ≠ []) :
    (createComponentMatchResult c input execResult).input = input ∧
    ((createComponentMatchResult c input execResult).groups = none ↔
      execResult.length - 1 = 0 ∨
      (execResult.length = 2 ∧ execResult.getD 0 "" = "" ∧ execResult.getD 1 "" = "")) ∧
    (¬ (execResult.length - 1 = 0 ∨
        (execResult.length = 2 ∧ execResult.getD 0 "" = "" ∧ execResult.getD 1 "" = "")) →
      c.groupNameList.Nodup →
      execResult.length - 1 = c.groupNameList.length →
      ∃ groups, (createComponentMatchResult c input execResult).groups = some groups ∧
        ∀ i, i < c.groupNameList.length →
          groupsLookup groups (c.groupNameList.getD i "") =
            some (execResult.getD (i + 1) "")) := by
  unfold createComponentMatchResult
  by_cases hcond : execResult.length - 1 = 0 ∨
      (execResult.length = 2 ∧ execResult.getD 0 "" = "" ∧ execResult.getD 1 "" = "")
  · rw [if_pos hcond]
    simp only [List.getD, List.get?_eq_getElem?] at hcond
    exact ⟨rfl, by simp [hcond],
      fun h => absurd hcond (by simpa [List.getD, List.get?_eq_getElem?] using h)⟩
  · rw [if_neg hcond]
    simp only [List.getD, List.get?_eq_getElem?] at hcond
    refine ⟨rfl, by simp [hcond], ?_⟩
    intro _ hnd hlen
    refine ⟨_, rfl, ?_⟩
    intro i hi
    exact groupsLookup_range_map c.groupNameList (fun j => execResult.getD (j + 1) "")
      (execResult.length - 1) (by omega) hnd i (by omega)

/-- Witness for C7 at concrete match results: a one-capture all-empty match
omits groups, and a non-empty match maps the name to its capture. -/
theorem c7_groups_omitted_iff_witness :
    (createComponentMatchResult ⟨"", fun s => some [s], ["a"], false⟩ "" ["", ""]).groups =
      none ∧
    ∃ groups,
      (createComponentMatchResult ⟨"", fun s => some [s], ["a"], false⟩ "xy" ["xy", "y"]).groups =
        some groups ∧ groupsLookup groups "a" = some "y" := by
  constructor
  · exact ((c7_groups_omitted_iff ⟨"", fun s => some [s], ["a"], false⟩ "" ["", ""]
      (by decide)).2.1).mpr (Or.inr (by decide))
  · obtain ⟨groups, hg, hl⟩ :=
      (c7_groups_omitted_iff ⟨"", fun s => some [s], ["a"], false⟩ "xy" ["xy", "y"]
        (by decide)).2.2 (by decide) (by decide) (by decide)
    exact ⟨groups, hg, by simpa using hl 0 (by decide)⟩

/-- C8 counterexample: with processing type `pattern`, a base URL whose
pathname contains a pattern metacharacter is pattern-escaped before the join,
so the joined value is not the base URL's raw pathname prefix that the claim
describes. -/
theorem c8_counterexample_escaped_base_path :
    resolveRelativePathname (some { pathname := "\x7b/" }) "pattern" "x" ≠
      c8ClaimJoin (some { pathname := "\x7b/" }) "pattern" "x" := by
  decide

/-- C8 amended: the supplied pathname is joined exactly when a base URL
exists, its path is not opaque, the pathname is not absolute, and the
processed (pattern-escaped when the type is `pattern`) base pathname contains
a slash; the joined value is that processed base pathname up to and including
its final slash, concatenated with the supplied pathname; otherwise the
pathname is left unjoined. -/
theorem c8_relative_pathname_join (baseURL : Option Url) (iType pathname : String)
    (hty : iType = "pattern" ∨ iType = "url") :
    resolveRelativePathname baseURL iType pathname = c8AmendedJoin baseURL iType pathname := by
  cases baseURL with
  | none => rfl
  | some b =>
    unfold resolveRelativePathname c8AmendedJoin
    rw [isAbsolutePathname_eq_claim iType pathname hty]
    by_cases hop : b.opaquePath
    · simp [hop]
    · by_cases habs : c8ClaimAbsolute iType pathname
      · simp [hop, habs]
      · cases hls : lastSlashIndex (processBaseURLString b.pathname iType) with
        | some i =>
          have hcont : '/' ∈ (processBaseURLString b.pathname iType).data := by
            by_contra hmem
            rw [← lastSlashIndex_none_iff] at hmem
            rw [hls] at hmem
            exact Option.noConfusion hmem
          simp [hop, habs, hls, hcont, upToIncludingLastSlash]
        | none =>
          have hcont : '/' ∉ (processBaseURLString b.pathname iType).data :=
            (lastSlashIndex_none_iff _).mp hls
          simp [hop, habs, hls, hcont]

/-- Witness for C8's amended join at a concrete url-type instance. -/
theorem c8_relative_pathname_join_witness :
    resolveRelativePathname (some { pathname := "/a/b" }) "url" "x" =
      c8AmendedJoin (some { pathname := "/a/b" }) "url" "x" :=
  c8_relative_pathname_join (some { pathname := "/a/b" }) "url" "x" (Or.inr rfl)

/-- C9: `canonicalizeHash` never returns an error: a failing fragment-state
basic parse on a non-empty input yields the empty string with a nil error,
whereas `canonicalizeSearch` (like the other canonicalizers) propagates its
parse failure. -/
theorem c9_canonicalize_hash_never_errors (ext : Externals) (value : String) :
    (∃ s, canonicalizeHash ext value = .ok s) ∧
    (∀ e, value ≠ "" →
      ext.basicParse value none (some ext.newUrl) .stateFragment = .error e →
      canonicalizeHash ext value = .ok "") ∧
    (∀ e, value ≠ "" →
      ext.basicParse value none (some ext.newUrl) .stateQuery = .error e →
      canonicalizeSearch ext value = .error e) := by
  refine ⟨?_, ?_, ?_⟩
  · unfold canonicalizeHash
    by_cases h : value = ""
    · simp [h]
    · simp only [h, if_false]
      cases hp : ext.basicParse value none (some ext.newUrl) .stateFragment with
      | error e => exact ⟨"", rfl⟩
      | ok u => exact ⟨u.fragment, rfl⟩
  · intro e hne hp
    unfold canonicalizeHash
    simp only [hne, if_false, hp]
  · intro e hne hp
    unfold canonicalizeSearch
    simp only [hne, if_false, hp]

/-- Witness for C9 with a concretely failing external parser. -/
theorem c9_canonicalize_hash_never_errors_witness :
    canonicalizeHash failingExternals "x" = .ok "" ∧
    canonicalizeSearch failingExternals "x" = .error (.external 0) :=
  ⟨(c9_canonicalize_hash_never_errors failingExternals "x").2.1 (.external 0)
      (by decide) rfl,
   (c9_canonicalize_hash_never_errors failingExternals "x").2.2 (.external 0)
      (by decide) rfl⟩

/-- C10: `hostnamePatternIsIPv6Address` is false on every input shorter than
two code points; in particular the one-character hostname pattern `[` is not
an IPv6 address pattern, and the hostname branch of construction therefore
does not select the IPv6 canonicalizer for it. -/
theorem c10_short_hostname_not_ipv6 :
    (∀ s : String, s.data.length < 2 → hostnamePatternIsIPv6Address s = false) ∧
    hostnamePatternIsIPv6Address "[" = false ∧
    (∀ (protocolComponent : component) (processedProtocol : String),
      hostnameCanonicalizerFor "[" protocolComponent processedProtocol ≠ .ipv6) := by
  refine ⟨?_, rfl, ?_⟩
  · intro s h
    match s, h with
    | ⟨[]⟩, _ => rfl
    | ⟨[c]⟩, _ =>
      unfold hostnamePatternIsIPv6Address
      simp
      intro h2 hc
      rw [hc] at h2
      simp [Char.utf8Size] at h2
  · intro pc pp
    unfold hostnameCanonicalizerFor
    rw [show hostnamePatternIsIPv6Address "[" = false from rfl]
    simp only [Bool.false_eq_true, if_false]
    by_cases h : pc.protocolComponentMatchesSpecialScheme = true ∨ pp = "*" <;> simp [h]

/-- Witness for C10 at the concrete one-character pattern. -/
theorem c10_short_hostname_not_ipv6_witness :
    hostnamePatternIsIPv6Address "[" = false :=
  c10_short_hostname_not_ipv6.1 "[" (by decide)

/-- C4: whenever init processing produces a special-scheme protocol pattern
together with that scheme's default port, construction rewrites the port to
the empty string (leaving all other components untouched), so the compiled
port component's pattern string — the value `Port()` returns — is empty. -/
theorem c4_default_port_compiles_empty (init : URLPatternInit) (opt : Options) (ext : Externals)
    (pi : URLPatternInit) (scheme : String)
    (hproc : init.process ext "pattern" none none none none none none none none = .ok pi)
    (hscheme : scheme ∈ specialSchemeList)
    (hprot : (starDefaults pi).Protocol = some scheme)
    (hport : (starDefaults pi).Port = some (defaultPortsGet scheme))
    (hok : (init.New opt ext).isOk = true) :
    (init.New opt ext).map URLPattern.Port = .ok "" ∧
    applyDefaultPortRule (starDefaults pi) = { starDefaults pi with Port := some "" } := by
  have hrule := applyDefaultPortRule_hit (starDefaults pi) scheme hscheme hprot hport
  refine ⟨?_, hrule⟩
  unfold URLPatternInit.New at hok ⊢
  rw [hproc] at hok ⊢
  simp only [bind, Except.bind] at hok ⊢
  rw [hrule] at hok ⊢
  try dsimp only at hok ⊢
  cases h1 : compileComponent ext ((starDefaults pi).Protocol.getD "") (canonicalizeProtocol ext) defaultOptions with
  | error e => rw [h1] at hok; simp [Except.isOk, Except.toBool] at hok
  | ok protocol =>
  rw [h1] at hok
  try dsimp only at hok ⊢
  cases h2 : compileComponent ext ((starDefaults pi).Username.getD "") (canonicalizeUsername ext) defaultOptions with
  | error e => rw [h2] at hok; simp [Except.isOk, Except.toBool] at hok
  | ok username =>
  rw [h2] at hok
  try dsimp only at hok ⊢
  cases h3 : compileComponent ext ((starDefaults pi).Password.getD "") (canonicalizePassword ext) defaultOptions with
  | error e => rw [h3] at hok; simp [Except.isOk, Except.toBool] at hok
  | ok password =>
  rw [h3] at hok
  try dsimp only at hok ⊢
  cases hch : hostnameCanonicalizerFor ((starDefaults pi).Hostname.getD "") protocol ((starDefaults pi).Protocol.getD "") with
  | ipv6 =>
    rw [hch] at hok
    try dsimp only at hok ⊢
    cases h4 : compileComponent ext ((starDefaults pi).Hostname.getD "") (fun s => canonicalizeIPv6Hostname s) hostnameOptions with
    | error e => rw [h4] at hok; simp [Except.isOk, Except.toBool] at hok
    | ok hostname =>
    rw [h4] at hok
    try dsimp only at hok ⊢
    simp only [Option.getD_some] at hok ⊢
    rw [compileComponent_empty ext (fun s => canonicalizePort ext s "")] at hok ⊢
    cases h5 : ext.regexpCompile "\\A(?:)\\z" with
    | error e => rw [h5] at hok; simp [Except.map, Except.isOk, Except.toBool] at hok
    | ok re =>
    rw [h5] at hok
    dsimp only [Except.map] at hok ⊢
    cases hps : protocol.protocolComponentMatchesSpecialScheme with
    | true =>
      rw [hps] at hok
      try dsimp only at hok ⊢
      cases h6 : compileComponent ext ((starDefaults pi).Pathname.getD "") (canonicalizePathname ext) (options.mk '/' '/' opt.IgnoreCase) with
      | error e => rw [h6] at hok; simp [Except.isOk, Except.toBool] at hok
      | ok pathname =>
      rw [h6] at hok
      try dsimp only at hok ⊢
      cases h7 : compileComponent ext ((starDefaults pi).Search.getD "") (canonicalizeSearch ext) (options.mk defaultOptions.delimiterCodePoint defaultOptions.prefixCodePoint opt.IgnoreCase) with
      | error e => rw [h7] at hok; simp [Except.isOk, Except.toBool] at hok
      | ok search =>
      rw [h7] at hok
      try dsimp only at hok ⊢
      cases h8 : compileComponent ext ((starDefaults pi).Hash.getD "") (canonicalizeHash ext) (options.mk defaultOptions.delimiterCodePoint defaultOptions.prefixCodePoint opt.IgnoreCase) with
      | error e => rw [h8] at hok; simp [Except.isOk, Except.toBool] at hok
      | ok hash => rfl
    | false =>
      rw [hps] at hok
      try dsimp only at hok ⊢
      cases h6 : compileComponent ext ((starDefaults pi).Pathname.getD "") (canonicalizeOpaquePathname ext) (options.mk defaultOptions.delimiterCodePoint defaultOptions.prefixCodePoint opt.IgnoreCase) with
      | error e => rw [h6] at hok; simp [Except.isOk, Except.toBool] at hok
      | ok pathname =>
      rw [h6] at hok
      try dsimp only at hok ⊢
      cases h7 : compileComponent ext ((starDefaults pi).Search.getD "") (canonicalizeSearch ext) (options.mk defaultOptions.delimiterCodePoint defaultOptions.prefixCodePoint opt.IgnoreCase) with
      | error e => rw [h7] at hok; simp [Except.isOk, Except.toBool] at hok
      | ok search =>
      rw [h7] at hok
      try dsimp only at hok ⊢
      cases h8 : compileComponent ext ((starDefaults pi).Hash.getD "") (canonicalizeHash ext) (options.mk defaultOptions.delimiterCodePoint defaultOptions.prefixCodePoint opt.IgnoreCase) with
      | error e => rw [h8] at hok; simp [Except.isOk, Except.toBool] at hok
      | ok hash => rfl
  | domain =>
    rw [hch] at hok
    try dsimp only at hok ⊢
    cases h4 : compileComponent ext ((starDefaults pi).Hostname.getD "") (canonicalizeDomainName ext) hostnameOptions with
    | error e => rw [h4] at hok; simp [Except.isOk, Except.toBool] at hok
    | ok hostname =>
    rw [h4] at hok
    try dsimp only at hok ⊢
    simp only [Option.getD_some] at hok ⊢
    rw [compileComponent_empty ext (fun s => canonicalizePort ext s "")] at hok ⊢
    cases h5 : ext.regexpCompile "\\A(?:)\\z" with
    | error e => rw [h5] at hok; simp [Except.map, Except.isOk, Except.toBool] at hok
    | ok re =>
    rw [h5] at hok
    dsimp only [Except.map] at hok ⊢
    cases hps : protocol.protocolComponentMatchesSpecialScheme with
    | true =>
      rw [hps] at hok
      try dsimp only at hok ⊢
      cases h6 : compileComponent ext ((starDefaults pi).Pathname.getD "") (canonicalizePathname ext) (options.mk '/' '/' opt.IgnoreCase) with
      | error e => rw [h6] at hok; simp [Except.isOk, Except.toBool] at hok
      | ok pathname =>
      rw [h6] at hok
      try dsimp only at hok ⊢
      cases h7 : compileComponent ext ((starDefaults pi).Search.getD "") (canonicalizeSearch ext) (options.mk defaultOptions.delimiterCodePoint defaultOptions.prefixCodePoint opt.IgnoreCase) with
      | error e => rw [h7] at hok; simp [Except.isOk, Except.toBool] at hok
      | ok search =>
      rw [h7] at hok
      try dsimp only at hok ⊢
      cases h8 : compileComponent ext ((starDefaults pi).Hash.getD "") (canonicalizeHash ext) (options.mk defaultOptions.delimiterCodePoint defaultOptions.prefixCodePoint opt.IgnoreCase) with
      | error e => rw [h8] at hok; simp [Except.isOk, Except.toBool] at hok
      | ok hash => rfl
    | false =>
      rw [hps] at hok
      try dsimp only at hok ⊢
      cases h6 : compileComponent ext ((starDefaults pi).Pathname.getD "") (canonicalizeOpaquePathname ext) (options.mk defaultOptions.delimiterCodePoint defaultOptions.prefixCodePoint opt.IgnoreCase) with
      | error e => rw [h6] at hok; simp [Except.isOk, Except.toBool] at hok
      | ok pathname =>
      rw [h6] at hok
      try dsimp only at hok ⊢
      cases h7 : compileComponent ext ((starDefaults pi).Search.getD "") (canonicalizeSearch ext) (options.mk defaultOptions.delimiterCodePoint defaultOptions.prefixCodePoint opt.IgnoreCase) with
      | error e => rw [h7] at hok; simp [Except.isOk, Except.toBool] at hok
      | ok search =>
      rw [h7] at hok
      try dsimp only at hok ⊢
      cases h8 : compileComponent ext ((starDefaults pi).Hash.getD "") (canonicalizeHash ext) (options.mk defaultOptions.delimiterCodePoint defaultOptions.prefixCodePoint opt.IgnoreCase) with
      | error e => rw [h8] at hok; simp [Except.isOk, Except.toBool] at hok
      | ok hash => rfl
  | nonSpecial =>
    rw [hch] at hok
    try dsimp only at hok ⊢
    cases h4 : compileComponent ext ((starDefaults pi).Hostname.getD "") (fun s => canonicalizeHostname ext s "") hostnameOptions with
    | error e => rw [h4] at hok; simp [Except.isOk, Except.toBool] at hok
    | ok hostname =>
    rw [h4] at hok
    try dsimp only at hok ⊢
    simp only [Option.getD_some] at hok ⊢
    rw [compileComponent_empty ext (fun s => canonicalizePort ext s "")] at hok ⊢
    cases h5 : ext.regexpCompile "\\A(?:)\\z" with
    | error e => rw [h5] at hok; simp [Except.map, Except.isOk, Except.toBool] at hok
    | ok re =>
    rw [h5] at hok
    dsimp only [Except.map] at hok ⊢
    cases hps : protocol.protocolComponentMatchesSpecialScheme with
    | true =>
      rw [hps] at hok
      try dsimp only at hok ⊢
      cases h6 : compileComponent ext ((starDefaults pi).Pathname.getD "") (canonicalizePathname ext) (options.mk '/' '/' opt.IgnoreCase) with
      | error e => rw [h6] at hok; simp [Except.isOk, Except.toBool] at hok
      | ok pathname =>
      rw [h6] at hok
      try dsimp only at hok ⊢
      cases h7 : compileComponent ext ((starDefaults pi).Search.getD "") (canonicalizeSearch ext) (options.mk defaultOptions.delimiterCodePoint defaultOptions.prefixCodePoint opt.IgnoreCase) with
      | error e => rw [h7] at hok; simp [Except.isOk, Except.toBool] at hok
      | ok search =>
      rw [h7] at hok
      try dsimp only at hok ⊢
      cases h8 : compileComponent ext ((starDefaults pi).Hash.getD "") (canonicalizeHash ext) (options.mk defaultOptions.delimiterCodePoint defaultOptions.prefixCodePoint opt.IgnoreCase) with
      | error e => rw [h8] at hok; simp [Except.isOk, Except.toBool] at hok
      | ok hash => rfl
    | false =>
      rw [hps] at hok
      try dsimp only at hok ⊢
      cases h6 : compileComponent ext ((starDefaults pi).Pathname.getD "") (canonicalizeOpaquePathname ext) (options.mk defaultOptions.delimiterCodePoint defaultOptions.prefixCodePoint opt.IgnoreCase) with
      | error e => rw [h6] at hok; simp [Except.isOk, Except.toBool] at hok
      | ok pathname =>
      rw [h6] at hok
      try dsimp only at hok ⊢
      cases h7 : compileComponent ext ((starDefaults pi).Search.getD "") (canonicalizeSearch ext) (options.mk defaultOptions.delimiterCodePoint defaultOptions.prefixCodePoint opt.IgnoreCase) with
      | error e => rw [h7] at hok; simp [Except.isOk, Except.toBool] at hok
      | ok search =>
      rw [h7] at hok
      try dsimp only at hok ⊢
      cases h8 : compileComponent ext ((starDefaults pi).Hash.getD "") (canonicalizeHash ext) (options.mk defaultOptions.delimiterCodePoint defaultOptions.prefixCodePoint opt.IgnoreCase) with
      | error e => rw [h8] at hok; simp [Except.isOk, Except.toBool] at hok
      | ok hash => rfl

/-- Witness for C4 at the concrete init for `https` with port 443. -/
theorem c4_default_port_compiles_empty_witness :
    (URLPatternInit.New ⟨some "https", none, none, none, some "443", none, none, none, none⟩
        ⟨false⟩ trivialExternals).map URLPattern.Port = .ok "" :=
  (c4_default_port_compiles_empty ⟨some "https", none, none, none, some "443", none, none, none, none⟩
    ⟨false⟩ trivialExternals ⟨some "https", none, none, none, some "443", none, none, none, none⟩
    "https" (by rfl) (by decide) (by rfl) (by rfl) (by rfl)).1


end UrlPattern
namespace UrlPattern

lemma pairwise_snoc_name {l : partList} {x : part} (hl : l.Pairwise namePred)
    (hx : ∀ a ∈ l, namePred a x) : (l ++ [x]).Pairwise namePred := by
  rw [List.pairwise_append]
  exact ⟨hl, List.pairwise_singleton _ _, fun a ha b hb => by
    simp at hb; subst hb; exact hx a ha⟩

lemma maybeAdd_pairwise {p p' : patternParser}
    (h : p.maybeAddPartFromPendingFixedValue = .ok p')
    (hp : p.partList.Pairwise namePred) : p'.partList.Pairwise namePred := by
  unfold patternParser.maybeAddPartFromPendingFixedValue at h
  split at h
  · simp at h; rw [← h]; exact hp
  · cases hcb : p.encodingCallback p.pendingFixedValue with
    | error e => rw [hcb] at h; exact absurd h (by simp)
    | ok v =>
      rw [hcb] at h
      simp at h
      rw [← h]
      exact pairwise_snoc_name hp (fun a _ heq => heq)

lemma addPart_pairwise {p : patternParser} {prefix_ : String} {nt rwt : Option token}
    {suffix : String} {mt : Option token} {p' : patternParser}
    (h : p.addPart prefix_ nt rwt suffix mt = .ok p')
    (hp : p.partList.Pairwise namePred) : p'.partList.Pairwise namePred := by
  unfold patternParser.addPart at h
  split at h
  · simp at h; rw [← h]; exact hp
  · cases hma : p.maybeAddPartFromPendingFixedValue with
    | error e => rw [hma] at h; exact absurd h (by simp)
    | ok p1 =>
      rw [hma] at h
      have hp1 := maybeAdd_pairwise hma hp
      split at h
      · rename_i hcontr
        exact absurd hcontr (by simp)
      · rename_i p2 hinj
        injection hinj with hinj
        subst hinj
        split at h
        · -- nameToken and regexpOrWildcardToken both absent: fixed-text path
          split at h
          · exact absurd h (by simp)
          · split at h
            · simp at h; rw [← h]; exact hp1
            · cases hcb : p1.encodingCallback prefix_ with
              | error e => rw [hcb] at h; exact absurd h (by simp)
              | ok v =>
                rw [hcb] at h; simp at h; rw [← h]
                exact pairwise_snoc_name hp1 (fun a _ heq => heq)
        · -- group path: duplicate check guards the append
          set q := (if nt = none ∧ rwt ≠ none then
              { p1 with nextNumericName := p1.nextNumericName + 1 } else p1) with hq
          have hql : q.partList = p1.partList := by rw [hq]; split <;> rfl
          dsimp only at h
          split at h
          · exact absurd h (by simp)
          · rename_i hdup
            cases hcb1 : q.encodingCallback prefix_ with
            | error e => rw [hcb1] at h; exact absurd h (by simp)
            | ok encodedPrefix =>
              rw [hcb1] at h
              cases hcb2 : q.encodingCallback suffix with
              | error e => rw [hcb2] at h; exact absurd h (by simp)
              | ok encodedSuffix =>
                rw [hcb2] at h
                simp at h
                rw [← h]
                dsimp only
                rw [hql]
                refine pairwise_snoc_name hp1 ?_
                intro a ha heq
                exfalso
                apply hdup
                unfold patternParser.isDuplicateName
                rw [hql]
                exact List.any_eq_true.mpr ⟨a, ha, by simp [heq]⟩

end UrlPattern
namespace UrlPattern

lemma tryConsumeToken_partList {p : patternParser} {tt : tokenType} {o : Option token}
    {p' : patternParser} (h : p.tryConsumeToken tt = .ok (o, p')) :
    p'.partList = p.partList := by
  unfold patternParser.tryConsumeToken at h
  split at h
  · exact absurd h (by simp)
  · dsimp only at h
    split at h
    · simp at h; rw [← h.2]
    · simp at h; rw [← h.2]

lemma tryConsumeRegexpOrWildcardToken_partList {p : patternParser} {nt : Option token}
    {o : Option token} {p' : patternParser}
    (h : p.tryConsumeRegexpOrWildcardToken nt = .ok (o, p')) :
    p'.partList = p.partList := by
  unfold patternParser.tryConsumeRegexpOrWildcardToken at h
  cases h1 : p.tryConsumeToken .tokenRegexp with
  | error e => rw [h1] at h; exact absurd h (by simp)
  | ok pr =>
    obtain ⟨tok, p1⟩ := pr
    rw [h1] at h
    have e1 := tryConsumeToken_partList h1
    dsimp only at h
    split at h
    · exact (tryConsumeToken_partList h).trans e1
    · simp at h; rw [← h.2]; exact e1

lemma tryConsumeModifierToken_partList {p : patternParser} {o : Option token}
    {p' : patternParser} (h : p.tryConsumeModifierToken = .ok (o, p')) :
    p'.partList = p.partList := by
  unfold patternParser.tryConsumeModifierToken at h
  cases h1 : p.tryConsumeToken .tokenOtherModifier with
  | error e => rw [h1] at h; exact absurd h (by simp)
  | ok pr =>
    obtain ⟨tok, p1⟩ := pr
    rw [h1] at h
    have e1 := tryConsumeToken_partList h1
    dsimp only at h
    split at h
    · simp at h; rw [← h.2]; exact e1
    · exact (tryConsumeToken_partList h).trans e1

lemma consumeText_partList {fuel : Nat} {p : patternParser} {acc s : String}
    {p' : patternParser} (h : patternParser.consumeText fuel p acc = .ok (s, p')) :
    p'.partList = p.partList := by
  induction fuel generalizing p acc with
  | zero => exact absurd h (by simp [patternParser.consumeText])
  | succ fuel ih =>
    unfold patternParser.consumeText at h
    cases h1 : p.tryConsumeToken .tokenChar with
    | error e => rw [h1] at h; exact absurd h (by simp)
    | ok pr =>
      obtain ⟨tok, p1⟩ := pr
      rw [h1] at h
      have e1 := tryConsumeToken_partList h1
      dsimp only at h
      cases h2 : (if tok = none then p1.tryConsumeToken .tokenEscapedChar
          else .ok (tok, p1)) with
      | error e => rw [h2] at h; exact absurd h (by simp)
      | ok pr2 =>
        obtain ⟨tok2, p2⟩ := pr2
        rw [h2] at h
        have e2 : p2.partList = p1.partList := by
          split at h2
          · exact tryConsumeToken_partList h2
          · simp at h2; rw [← h2.2]
        cases tok2 with
        | none => simp at h; rw [← h.2]; exact e2.trans e1
        | some tok2 =>
          dsimp only at h
          exact (ih h).trans (e2.trans e1)

lemma consumeRequiredToken_partList {p : patternParser} {tt : tokenType} {tok : token}
    {p' : patternParser} (h : p.consumeRequiredToken tt = .ok (tok, p')) :
    p'.partList = p.partList := by
  unfold patternParser.consumeRequiredToken at h
  cases h1 : p.tryConsumeToken tt with
  | error e => rw [h1] at h; exact absurd h (by simp)
  | ok pr =>
    obtain ⟨o, p1⟩ := pr
    rw [h1] at h
    cases o with
    | none => exact absurd h (by simp)
    | some t =>
      simp at h
      rw [← h.2]
      exact tryConsumeToken_partList h1

end UrlPattern
namespace UrlPattern

lemma parseIteration_pairwise {opts : options} {p p' : patternParser}
    (h : parseIteration opts p = .ok p')
    (hp : p.partList.Pairwise namePred) : p'.partList.Pairwise namePred := by
  unfold parseIteration at h
  cases h1 : p.tryConsumeToken .tokenChar with
  | error e => rw [h1] at h; exact absurd h (by simp)
  | ok pr1 =>
  obtain ⟨charToken, p1⟩ := pr1
  rw [h1] at h
  have hp1 : p1.partList.Pairwise namePred := (tryConsumeToken_partList h1) ▸ hp
  dsimp only at h
  cases h2 : p1.tryConsumeToken .tokenName with
  | error e => rw [h2] at h; exact absurd h (by simp)
  | ok pr2 =>
  obtain ⟨nameToken, p2⟩ := pr2
  rw [h2] at h
  have hp2 : p2.partList.Pairwise namePred := (tryConsumeToken_partList h2) ▸ hp1
  dsimp only at h
  cases h3 : p2.tryConsumeRegexpOrWildcardToken nameToken with
  | error e => rw [h3] at h; exact absurd h (by simp)
  | ok pr3 =>
  obtain ⟨rwt, p3⟩ := pr3
  rw [h3] at h
  have hp3 : p3.partList.Pairwise namePred :=
    (tryConsumeRegexpOrWildcardToken_partList h3) ▸ hp2
  dsimp only at h
  split at h
  · -- a name or regexp/wildcard token is present
    cases charToken with
    | none =>
      dsimp only at h
      rw [if_neg (by simp : ¬("" ≠ "" ∧ "" ≠ String.singleton opts.prefixCodePoint))] at h
      dsimp only at h
      cases h4 : p3.maybeAddPartFromPendingFixedValue with
      | error e => rw [h4] at h; exact absurd h (by simp)
      | ok p4 =>
        rw [h4] at h
        have hp4 := maybeAdd_pairwise h4 hp3
        dsimp only at h
        cases h5 : p4.tryConsumeModifierToken with
        | error e => rw [h5] at h; exact absurd h (by simp)
        | ok pr5 =>
          obtain ⟨modifierToken, p5⟩ := pr5
          rw [h5] at h
          have hp5 : p5.partList.Pairwise namePred :=
            (tryConsumeModifierToken_partList h5) ▸ hp4
          dsimp only at h
          exact addPart_pairwise h hp5
    | some tok =>
      dsimp only at h
      by_cases hc : (tok.value ≠ "" ∧ tok.value ≠ String.singleton opts.prefixCodePoint)
      · -- prefix pushed into pendingFixedValue
        rw [if_pos hc] at h
        dsimp only at h
        cases h4 : ({ p3 with pendingFixedValue :=
            p3.pendingFixedValue ++ tok.value } : patternParser).maybeAddPartFromPendingFixedValue with
        | error e => rw [h4] at h; exact absurd h (by simp)
        | ok p4 =>
          rw [h4] at h
          have hp4 := maybeAdd_pairwise h4 hp3
          dsimp only at h
          cases h5 : p4.tryConsumeModifierToken with
          | error e => rw [h5] at h; exact absurd h (by simp)
          | ok pr5 =>
            obtain ⟨modifierToken, p5⟩ := pr5
            rw [h5] at h
            have hp5 : p5.partList.Pairwise namePred :=
              (tryConsumeModifierToken_partList h5) ▸ hp4
            dsimp only at h
            exact addPart_pairwise h hp5
      · rw [if_neg hc] at h
        dsimp only at h
        cases h4 : p3.maybeAddPartFromPendingFixedValue with
        | error e => rw [h4] at h; exact absurd h (by simp)
        | ok p4 =>
          rw [h4] at h
          have hp4 := maybeAdd_pairwise h4 hp3
          dsimp only at h
          cases h5 : p4.tryConsumeModifierToken with
          | error e => rw [h5] at h; exact absurd h (by simp)
          | ok pr5 =>
            obtain ⟨modifierToken, p5⟩ := pr5
            rw [h5] at h
            have hp5 : p5.partList.Pairwise namePred :=
              (tryConsumeModifierToken_partList h5) ▸ hp4
            dsimp only at h
            exact addPart_pairwise h hp5
  · -- fixed-text / group-open / end path
    cases h4 : (if charToken = none then p3.tryConsumeToken .tokenEscapedChar
        else .ok (charToken, p3)) with
    | error e => rw [h4] at h; exact absurd h (by simp)
    | ok pr4 =>
    obtain ⟨fixedToken, p4⟩ := pr4
    rw [h4] at h
    have hp4 : p4.partList.Pairwise namePred := by
      have e4 : p4.partList = p3.partList := by
        split at h4
        · exact tryConsumeToken_partList h4
        · simp at h4; rw [← h4.2]
      exact e4 ▸ hp3
    cases fixedToken with
    | some ft =>
      simp at h
      rw [← h]
      exact hp4
    | none =>
    dsimp only at h
    cases h5 : p4.tryConsumeToken .tokenOpen with
    | error e => rw [h5] at h; exact absurd h (by simp)
    | ok pr5 =>
    obtain ⟨openTok, p5⟩ := pr5
    rw [h5] at h
    have hp5 : p5.partList.Pairwise namePred := (tryConsumeToken_partList h5) ▸ hp4
    cases openTok with
    | some ot =>
      dsimp only at h
      cases h6 : patternParser.consumeText (p5.tokenList.length + 1) p5 "" with
      | error e => rw [h6] at h; exact absurd h (by simp)
      | ok pr6 =>
      obtain ⟨prefix6, p6⟩ := pr6
      rw [h6] at h
      have hp6 : p6.partList.Pairwise namePred := (consumeText_partList h6) ▸ hp5
      dsimp only at h
      cases h7 : p6.tryConsumeToken .tokenName with
      | error e => rw [h7] at h; exact absurd h (by simp)
      | ok pr7 =>
      obtain ⟨nameToken7, p7⟩ := pr7
      rw [h7] at h
      have hp7 : p7.partList.Pairwise namePred := (tryConsumeToken_partList h7) ▸ hp6
      dsimp only at h
      cases h8 : p7.tryConsumeRegexpOrWildcardToken nameToken7 with
      | error e => rw [h8] at h; exact absurd h (by simp)
      | ok pr8 =>
      obtain ⟨rwt8, p8⟩ := pr8
      rw [h8] at h
      have hp8 : p8.partList.Pairwise namePred :=
        (tryConsumeRegexpOrWildcardToken_partList h8) ▸ hp7
      dsimp only at h
      cases h9 : patternParser.consumeText (p8.tokenList.length + 1) p8 "" with
      | error e => rw [h9] at h; exact absurd h (by simp)
      | ok pr9 =>
      obtain ⟨suffix9, p9⟩ := pr9
      rw [h9] at h
      have hp9 : p9.partList.Pairwise namePred := (consumeText_partList h9) ▸ hp8
      dsimp only at h
      cases h10 : p9.consumeRequiredToken .tokenClose with
      | error e => rw [h10] at h; exact absurd h (by simp)
      | ok pr10 =>
      obtain ⟨closeTok, p10⟩ := pr10
      rw [h10] at h
      have hp10 : p10.partList.Pairwise namePred :=
        (consumeRequiredToken_partList h10) ▸ hp9
      dsimp only at h
      cases h11 : p10.tryConsumeModifierToken with
      | error e => rw [h11] at h; exact absurd h (by simp)
      | ok pr11 =>
      obtain ⟨modifierToken, p11⟩ := pr11
      rw [h11] at h
      have hp11 : p11.partList.Pairwise namePred :=
        (tryConsumeModifierToken_partList h11) ▸ hp10
      dsimp only at h
      exact addPart_pairwise h hp11
    | none =>
      dsimp only at h
      cases h6 : p5.maybeAddPartFromPendingFixedValue with
      | error e => rw [h6] at h; exact absurd h (by simp)
      | ok p6 =>
      rw [h6] at h
      have hp6 := maybeAdd_pairwise h6 hp5
      dsimp only at h
      cases h7 : p6.consumeRequiredToken .tokenEnd with
      | error e => rw [h7] at h; exact absurd h (by simp)
      | ok pr7 =>
      obtain ⟨endTok, p7⟩ := pr7
      rw [h7] at h
      simp at h
      rw [← h]
      exact (consumeRequiredToken_partList h7) ▸ hp6

end UrlPattern
namespace UrlPattern

lemma parseLoop_pairwise {opts : options} {fuel : Nat} {p : patternParser} {pl : partList}
    (h : parseLoop opts fuel p = .ok pl)
    (hp : p.partList.Pairwise namePred) : pl.Pairwise namePred := by
  induction fuel generalizing p with
  | zero => exact absurd h (by simp [parseLoop])
  | succ fuel ih =>
    unfold parseLoop at h
    split at h
    · cases hi : parseIteration opts p with
      | error e => rw [hi] at h; exact absurd h (by simp)
      | ok p1 =>
        rw [hi] at h
        exact ih h (parseIteration_pairwise hi hp)
    · simp at h
      rw [← h]
      exact hp

lemma parsePatternString_pairwise {input : String} {opts : options}
    {cb : encodingCallback} {pl : partList}
    (h : parsePatternString input opts cb = .ok pl) : pl.Pairwise namePred := by
  unfold parsePatternString at h
  split at h
  · exact absurd h (by simp)
  · exact absurd h (by simp)
  · exact parseLoop_pairwise h List.Pairwise.nil
  · exact parseLoop_pairwise h List.Pairwise.nil

end UrlPattern
namespace UrlPattern

/-- C6 (amended): `addPart` returns the duplicate-part-name error whenever the
name chosen for a new named or anonymous group part (the `Name` token's value,
or the decimal counter string) equals the name of any earlier part, and in
every part list `parsePatternString` returns, any two parts sharing a name
carry the empty fixed-text name; distinct non-empty names are therefore
unique.  (The original claim that no two parts ever share a name fails for
fixed-text parts, which all carry the empty name.) -/
theorem c6_duplicate_name_check :
    (∀ (p p1 : patternParser) (prefix_ suffix : String) (nt rwt mt : Option token),
        ¬(nt = none ∧ rwt = none) →
        p.maybeAddPartFromPendingFixedValue = .ok p1 →
        p1.isDuplicateName (chosenPartName p1 nt rwt) = true →
        p.addPart prefix_ nt rwt suffix mt = .error .duplicatePartName) ∧
    (∀ (input : String) (opts : options) (cb : encodingCallback) (pl : partList),
        parsePatternString input opts cb = .ok pl → pl.Pairwise namePred) := by
  constructor
  · intro p p1 prefix_ suffix nt rwt mt hne hma hdup
    unfold patternParser.addPart
    rw [if_neg (by tauto)]
    rw [hma]
    split
    · rename_i e heq
      exact absurd heq (by simp)
    · rename_i p2 heq
      injection heq with heq
      subst heq
      rw [if_neg hne]
      dsimp only
      by_cases hb : (nt = none ∧ rwt ≠ none)
      · rw [if_pos hb]
        split
        · rfl
        · rename_i hq
          exact absurd hdup hq
      · rw [if_neg hb]
        split
        · rfl
        · rename_i hq
          exact absurd hdup hq
  · intro input opts cb pl h
    exact parsePatternString_pairwise h

theorem c6_duplicate_name_check_witness :
    (patternParser.addPart
        ⟨[], pureCallback, "re",
         [⟨.partSegmentWildcard, "", .partModifierNone, "a", "", ""⟩], "", 0, 0⟩
        "" (some ⟨.tokenName, 0, "a"⟩) none "" none = .error .duplicatePartName) ∧
    ∃ pl, parsePatternString "\x7ba\x7d?" defaultOptions pureCallback = .ok pl ∧
      pl.Pairwise namePred := by
  refine ⟨c6_duplicate_name_check.1 _ _ "" ""
      (some ⟨.tokenName, 0, "a"⟩) none none (by simp) rfl rfl, ?_⟩
  exact ⟨_, rfl, c6_duplicate_name_check.2 "\x7ba\x7d?" defaultOptions pureCallback _ rfl⟩

/-- C6 counterexample to the unamended claim: the pattern string composed of
two optional grouped fixed-text segments parses to two parts that share the
empty name. -/
theorem c6_counterexample_shared_empty_name :
    ∃ pl, parsePatternString "\x7ba\x7d?\x7bb\x7d?" defaultOptions pureCallback = .ok pl ∧
      pl.map part.name = ["", ""] ∧
      ¬ pl.Pairwise (fun a b => a.name ≠ b.name) := by
  refine ⟨[⟨.partFixedText, "a", .partModifierOptional, "", "", ""⟩,
           ⟨.partFixedText, "b", .partModifierOptional, "", "", ""⟩], rfl, rfl, ?_⟩
  intro hpw
  exact (List.pairwise_cons.mp hpw).1 _ (List.mem_cons_self _ _) rfl

end UrlPattern
namespace UrlPattern

lemma rxScan_append (s : rxScanState) (a b : List Char) :
    rxScan s (a ++ b) =
      ((rxScan (rxScan s a).1 b).1, (rxScan s a).2 + (rxScan (rxScan s a).1 b).2) := by
  induction a generalizing s with
  | nil => simp [rxScan]
  | cons c rest ih =>
    simp only [List.cons_append, rxScan, List.append_eq]
    rw [ih]
    dsimp only
    simp [Nat.add_assoc]

lemma scans_append {s1 s2 s3 : rxScanState} {a b : List Char} {m n : Nat}
    (ha : rxScan s1 a = (s2, m)) (hb : rxScan s2 b = (s3, n)) :
    rxScan s1 (a ++ b) = (s3, m + n) := by
  rw [rxScan_append, ha]
  dsimp only
  rw [hb]

lemma escape_regexp_clean (l : List Char) :
    rxScan .normal (escapeChars specialRegexp l) = (.normal, 0) := by
  induction l with
  | nil => rfl
  | cons c rest ih =>
    by_cases hc : specialRegexp c = true
    · simp only [escapeChars, hc, if_true, rxScan, rxStep, rxNormalNext]
      simp [ih]
    · have hne : c ≠ '\\' ∧ c ≠ '[' ∧ c ≠ '(' := by
        simp [specialRegexp, specialRegexpChars] at hc
        tauto
      simp only [escapeChars, hc, if_false, rxScan, rxStep, rxNormalNext,
        hne.1, hne.2.1, hne.2.2, if_false]
      simp [ih, hne.1, hne.2.1, hne.2.2, rxNormalNext]

end UrlPattern
namespace UrlPattern

lemma segment_wildcard_clean (opts : options) :
    rxScan .normal (generateSegmentWildcardRegexp opts).data = (.normal, 0) := by
  unfold generateSegmentWildcardRegexp escapeRegexpString
  by_cases hd : specialRegexp opts.delimiterCodePoint = true
  · simp only [String.data_append, String.singleton, String.data]
    simp [escapeChars, hd, rxScan, rxStep, rxNormalNext]
  · have hne : opts.delimiterCodePoint ≠ '\\' ∧ opts.delimiterCodePoint ≠ ']' := by
      simp [specialRegexp, specialRegexpChars] at hd
      tauto
    simp only [String.data_append, String.singleton, String.data]
    simp [escapeChars, hd, rxScan, rxStep, rxNormalNext, hne.1, hne.2]

lemma paren_wrap {v : List Char} {k : Nat} (hhead : v.head? ≠ some '?')
    (hv : rxScan .normal v = (.normal, k)) :
    rxScan .normal ('(' :: v ++ [')']) = (.normal, 1 + k) := by
  cases v with
  | nil =>
    have hk : k = 0 := by
      have := hv
      simp [rxScan] at this
      omega
    subst hk
    rfl
  | cons c rest =>
    have hc : c ≠ '?' := by
      intro hce
      subst hce
      exact hhead rfl
    have hrest : rxScan (rxNormalNext c) rest = (.normal, k) := by
      have h1 := hv
      simp only [rxScan, rxStep] at h1
      rw [Prod.mk.injEq] at h1
      exact Prod.ext h1.1 (by omega)
    have htail : rxScan (rxNormalNext c) (rest ++ [')']) = (.normal, k) := by
      have := scans_append hrest (show rxScan .normal [')'] = (.normal, 0) from rfl)
      simpa using this
    have hstep : rxScan .afterParen (c :: (rest ++ [')'])) = (.normal, 1 + k) := by
      simp only [rxScan, rxStep]
      rw [if_neg hc]
      dsimp only
      rw [htail]
    have hall := scans_append
      (show rxScan .normal ['('] = (.afterParen, 0) from rfl) hstep
    simpa using hall

end UrlPattern
namespace UrlPattern

lemma scansS_append {s1 s2 s3 : rxScanState} {a b : String} {m n : Nat}
    (ha : rxScan s1 a.data = (s2, m)) (hb : rxScan s2 b.data = (s3, n)) :
    rxScan s1 (a ++ b).data = (s3, m + n) := by
  rw [String.data_append]
  exact scans_append ha hb

lemma afterParen_clean {l : List Char} {k : Nat} (hne : l ≠ [])
    (hh : l.head? ≠ some '?') (hl : rxScan .normal l = (.normal, k)) :
    rxScan .afterParen l = (.normal, 1 + k) := by
  cases l with
  | nil => exact absurd rfl hne
  | cons c rest =>
    have hc : c ≠ '?' := by
      intro hce
      subst hce
      exact hh rfl
    have hrest : rxScan (rxNormalNext c) rest = (.normal, k) := by
      have h1 := hl
      simp only [rxScan, rxStep] at h1
      rw [Prod.mk.injEq] at h1
      exact Prod.ext h1.1 (by omega)
    simp only [rxScan, rxStep]
    rw [if_neg hc]
    dsimp only
    rw [hrest]

lemma escape_regexp_cleanS (s : String) :
    rxScan .normal (escapeRegexpString s).data = (.normal, 0) :=
  escape_regexp_clean s.data

lemma modifier_clean (m : partModifier) :
    rxScan .normal (modifierToStringIfAny m).data = (.normal, 0) := by
  cases m <;> rfl

lemma rx_branchA {rv : String} (m : partModifier)
    (hc : rxScan .normal rv.data = (.normal, 0)) (hh : rv.data.head? ≠ some '?') :
    rxScan .normal ("(" ++ rv ++ ")" ++ modifierToStringIfAny m).data = (.normal, 1) := by
  have h1 : rxScan .normal ("(" : String).data = (.afterParen, 0) := rfl
  by_cases hrve : rv.data = []
  · have h2 : rxScan .normal ("(" ++ rv).data = (.afterParen, 0) := by
      rw [String.data_append, hrve]
      exact h1
    have h3 : rxScan .normal ("(" ++ rv ++ ")").data = (.normal, 1) := by
      simpa using scansS_append h2
        (show rxScan .afterParen (")" : String).data = (.normal, 1) from rfl)
    simpa using scansS_append h3 (modifier_clean m)
  · have hrv2 : rxScan .afterParen rv.data = (.normal, 1) := by
      simpa using afterParen_clean hrve hh hc
    have h2 : rxScan .normal ("(" ++ rv).data = (.normal, 1) := by
      simpa using scansS_append h1 hrv2
    have h3 : rxScan .normal ("(" ++ rv ++ ")").data = (.normal, 1) := by
      simpa using scansS_append h2
        (show rxScan .normal (")" : String).data = (.normal, 0) from rfl)
    simpa using scansS_append h3 (modifier_clean m)

lemma rx_branchB {rv : String} (m : partModifier)
    (hc : rxScan .normal rv.data = (.normal, 0)) :
    rxScan .normal ("((?:" ++ rv ++ ")" ++ modifierToStringIfAny m ++ ")").data =
      (.normal, 1) := by
  have h1 : rxScan .normal ("((?:" : String).data = (.normal, 1) := rfl
  have h2 : rxScan .normal ("((?:" ++ rv).data = (.normal, 1) := by
    simpa using scansS_append h1 hc
  have h3 : rxScan .normal ("((?:" ++ rv ++ ")").data = (.normal, 1) := by
    simpa using scansS_append h2
      (show rxScan .normal (")" : String).data = (.normal, 0) from rfl)
  have h4 : rxScan .normal ("((?:" ++ rv ++ ")" ++ modifierToStringIfAny m).data =
      (.normal, 1) := by
    simpa using scansS_append h3 (modifier_clean m)
  simpa using scansS_append h4
    (show rxScan .normal (")" : String).data = (.normal, 0) from rfl)

lemma rx_branchC {x rv y : String} (m : partModifier)
    (hx : rxScan .normal x.data = (.normal, 0)) (hy : rxScan .normal y.data = (.normal, 0))
    (hc : rxScan .normal rv.data = (.normal, 0)) (hh : rv.data.head? ≠ some '?') :
    rxScan .normal ("(?:" ++ x ++ "(" ++ rv ++ ")" ++ y ++ ")" ++
      modifierToStringIfAny m).data = (.normal, 1) := by
  have h1 : rxScan .normal ("(?:" : String).data = (.normal, 0) := rfl
  have h2 : rxScan .normal ("(?:" ++ x).data = (.normal, 0) := by
    simpa using scansS_append h1 hx
  have h3 : rxScan .normal ("(?:" ++ x ++ "(").data = (.afterParen, 0) := by
    simpa using scansS_append h2
      (show rxScan .normal ("(" : String).data = (.afterParen, 0) from rfl)
  have h5 : rxScan .normal ("(?:" ++ x ++ "(" ++ rv ++ ")").data = (.normal, 1) := by
    by_cases hrve : rv.data = []
    · have h4 : rxScan .normal ("(?:" ++ x ++ "(" ++ rv).data = (.afterParen, 0) := by
        rw [String.data_append, hrve, List.append_nil]
        exact h3
      simpa using scansS_append h4
        (show rxScan .afterParen (")" : String).data = (.normal, 1) from rfl)
    · have hrv2 : rxScan .afterParen rv.data = (.normal, 1) := by
        simpa using afterParen_clean hrve hh hc
      have h4 : rxScan .normal ("(?:" ++ x ++ "(" ++ rv).data = (.normal, 1) := by
        simpa using scansS_append h3 hrv2
      simpa using scansS_append h4
        (show rxScan .normal (")" : String).data = (.normal, 0) from rfl)
  have h6 : rxScan .normal ("(?:" ++ x ++ "(" ++ rv ++ ")" ++ y).data = (.normal, 1) := by
    simpa using scansS_append h5 hy
  have h7 : rxScan .normal ("(?:" ++ x ++ "(" ++ rv ++ ")" ++ y ++ ")").data =
      (.normal, 1) := by
    simpa using scansS_append h6
      (show rxScan .normal (")" : String).data = (.normal, 0) from rfl)
  simpa using scansS_append h7 (modifier_clean m)

lemma rx_branchD {x rv y : String} (t : String)
    (hx : rxScan .normal x.data = (.normal, 0)) (hy : rxScan .normal y.data = (.normal, 0))
    (hc : rxScan .normal rv.data = (.normal, 0))
    (ht : rxScan .normal t.data = (.normal, 0)) :
    rxScan .normal ("(?:" ++ x ++ "((?:" ++ rv ++ ")(?:" ++ y ++ x ++ "(?:" ++ rv ++
      "))*)" ++ y ++ ")" ++ t).data = (.normal, 1) := by
  have h1 : rxScan .normal ("(?:" : String).data = (.normal, 0) := rfl
  have h2 : rxScan .normal ("(?:" ++ x).data = (.normal, 0) := by
    simpa using scansS_append h1 hx
  have h3 : rxScan .normal ("(?:" ++ x ++ "((?:").data = (.normal, 1) := by
    simpa using scansS_append h2
      (show rxScan .normal ("((?:" : String).data = (.normal, 1) from rfl)
  have h4 : rxScan .normal ("(?:" ++ x ++ "((?:" ++ rv).data = (.normal, 1) := by
    simpa using scansS_append h3 hc
  have h5 : rxScan .normal ("(?:" ++ x ++ "((?:" ++ rv ++ ")(?:").data = (.normal, 1) := by
    simpa using scansS_append h4
      (show rxScan .normal (")(?:" : String).data = (.normal, 0) from rfl)
  have h6 : rxScan .normal ("(?:" ++ x ++ "((?:" ++ rv ++ ")(?:" ++ y).data =
      (.normal, 1) := by
    simpa using scansS_append h5 hy
  have h7 : rxScan .normal ("(?:" ++ x ++ "((?:" ++ rv ++ ")(?:" ++ y ++ x).data =
      (.normal, 1) := by
    simpa using scansS_append h6 hx
  have h8 : rxScan .normal ("(?:" ++ x ++ "((?:" ++ rv ++ ")(?:" ++ y ++ x ++
      "(?:").data = (.normal, 1) := by
    simpa using scansS_append h7
      (show rxScan .normal ("(?:" : String).data = (.normal, 0) from rfl)
  have h9 : rxScan .normal ("(?:" ++ x ++ "((?:" ++ rv ++ ")(?:" ++ y ++ x ++ "(?:" ++
      rv).data = (.normal, 1) := by
    simpa using scansS_append h8 hc
  have h10 : rxScan .normal ("(?:" ++ x ++ "((?:" ++ rv ++ ")(?:" ++ y ++ x ++ "(?:" ++
      rv ++ "))*)").data = (.normal, 1) := by
    simpa using scansS_append h9
      (show rxScan .normal ("))*)" : String).data = (.normal, 0) from rfl)
  have h11 : rxScan .normal ("(?:" ++ x ++ "((?:" ++ rv ++ ")(?:" ++ y ++ x ++ "(?:" ++
      rv ++ "))*)" ++ y).data = (.normal, 1) := by
    simpa using scansS_append h10 hy
  have h12 : rxScan .normal ("(?:" ++ x ++ "((?:" ++ rv ++ ")(?:" ++ y ++ x ++ "(?:" ++
      rv ++ "))*)" ++ y ++ ")").data = (.normal, 1) := by
    simpa using scansS_append h11
      (show rxScan .normal (")" : String).data = (.normal, 0) from rfl)
  simpa using scansS_append h12 ht

end UrlPattern
namespace UrlPattern

lemma partRegexpSegment_captures {opts : options} {p : part} {seg : String}
    {names : List String}
    (hsafe : p.pType = .partRegexp →
      rxScan .normal p.value.data = (.normal, 0) ∧ p.value.data.head? ≠ some '?')
    (h : partRegexpSegment opts p = .ok (seg, names)) :
    rxScan .normal seg.data = (.normal, names.length) := by
  unfold partRegexpSegment at h
  split at h
  · split at h
    · simp at h
      rw [← h.1, h.2]
      simpa using escape_regexp_cleanS p.value
    · simp at h
      rw [← h.1, h.2]
      simp only [List.length_nil]
      have h1 : rxScan .normal ("(?:" : String).data = (.normal, 0) := rfl
      have h2 := scansS_append h1 (escape_regexp_cleanS p.value)
      have h3 := scansS_append h2
        (show rxScan .normal (")" : String).data = (.normal, 0) from rfl)
      simpa using scansS_append h3 (modifier_clean p.modifier)
  · split at h
    · exact absurd h (by simp)
    · rename_i hft hname
      have hrv : rxScan .normal (match p.pType with
            | .partSegmentWildcard => generateSegmentWildcardRegexp opts
            | .partFullWildcard => fullWildcardRegexpValue
            | _ => p.value).data = (.normal, 0) ∧
          (match p.pType with
            | .partSegmentWildcard => generateSegmentWildcardRegexp opts
            | .partFullWildcard => fullWildcardRegexpValue
            | _ => p.value).data.head? ≠ some '?' := by
        cases hpt : p.pType with
        | partFixedText => exact absurd hpt hft
        | partSegmentWildcard =>
          refine ⟨segment_wildcard_clean opts, ?_⟩
          show some '[' ≠ some '?'
          decide
        | partFullWildcard =>
          refine ⟨rfl, ?_⟩
          show fullWildcardRegexpValue.data.head? ≠ some '?'
          decide
        | partRegexp => exact hsafe hpt
      dsimp only at h
      split at h
      · split at h
        · simp at h
          rw [← h.1, ← h.2]
          simpa using rx_branchA p.modifier hrv.1 hrv.2
        · simp at h
          rw [← h.1, ← h.2]
          simpa using rx_branchB p.modifier hrv.1
      · rename_i hps
        split at h
        · simp at h
          rw [← h.1, ← h.2]
          simpa using rx_branchC p.modifier (escape_regexp_cleanS p.prefix_)
            (escape_regexp_cleanS p.suffix) hrv.1 hrv.2
        · split at h
          · exact absurd h (by simp)
          · simp at h
            rw [← h.1, ← h.2]
            have ht : rxScan .normal
                ((if p.modifier = .partModifierZeroOrMore then "?" else "") :
                  String).data = (.normal, 0) := by
              split <;> rfl
            simpa using rx_branchD _ (escape_regexp_cleanS p.prefix_)
              (escape_regexp_cleanS p.suffix) hrv.1 ht

end UrlPattern
namespace UrlPattern

lemma generateRegexpParts_captures {opts : options} {pl : List part} {s : String}
    {names : List String}
    (hsafe : ∀ p ∈ pl, p.pType = .partRegexp →
      rxScan .normal p.value.data = (.normal, 0) ∧ p.value.data.head? ≠ some '?')
    (h : generateRegexpParts opts pl = .ok (s, names)) :
    rxScan .normal s.data = (.normal, names.length) := by
  induction pl generalizing s names with
  | nil =>
    simp [generateRegexpParts] at h
    rw [← h.1, h.2]
    rfl
  | cons p rest ih =>
    unfold generateRegexpParts at h
    cases h1 : partRegexpSegment opts p with
    | error e => rw [h1] at h; exact absurd h (by simp)
    | ok pr1 =>
      obtain ⟨seg, segNames⟩ := pr1
      rw [h1] at h
      have hseg := partRegexpSegment_captures
        (hsafe p (List.mem_cons_self p rest)) h1
      dsimp only at h
      cases h2 : generateRegexpParts opts rest with
      | error e => rw [h2] at h; exact absurd h (by simp)
      | ok pr2 =>
        obtain ⟨s2, names2⟩ := pr2
        rw [h2] at h
        have hrest := ih (fun q hq => hsafe q (List.mem_cons_of_mem p hq)) h2
        simp at h
        rw [← h.1, ← h.2]
        simpa [Nat.add_comm] using scansS_append hseg hrest

/-- C3 (amended): if every custom `Regexp` part value contributes no capture
group of its own (its scan from the normal state returns to the normal state
with zero captures) and does not begin with `?`, then the regular expression
produced by `generateRegularExpressionAndNameList` has exactly as many capture
groups as the returned name list has entries.  (The original unconditional
claim fails: the tokenizer admits nested `(?P<x>...)` groups, which the Go
engine counts as capturing.) -/
theorem c3_name_list_capture_count {pl : partList} {opts : options} {r : String}
    {names : List String}
    (hsafe : ∀ p ∈ pl, p.pType = .partRegexp →
      rxScan .normal p.value.data = (.normal, 0) ∧ p.value.data.head? ≠ some '?')
    (h : generateRegularExpressionAndNameList pl opts = .ok (r, names)) :
    captureGroupCount r = names.length := by
  unfold generateRegularExpressionAndNameList at h
  cases h1 : generateRegexpParts opts pl with
  | error e => rw [h1] at h; exact absurd h (by simp)
  | ok pr =>
    obtain ⟨body, bnames⟩ := pr
    rw [h1] at h
    have hbody := generateRegexpParts_captures hsafe h1
    simp at h
    rw [← h.1, ← h.2]
    unfold captureGroupCount
    by_cases hic : opts.ignoreCase = true
    · rw [if_pos hic]
      have ha : rxScan .normal ("(?i)" ++ "\\A(?:" : String).data = (.normal, 0) := rfl
      have hb : rxScan .normal (("(?i)" ++ "\\A(?:") ++ body).data =
          (.normal, bnames.length) := by
        simpa using scansS_append ha hbody
      have hc := scansS_append hb
        (show rxScan .normal (")\\z" : String).data = (.normal, 0) from rfl)
      have hd : ("(?i)" ++ "\\A(?:" ++ body ++ ")\\z" : String).data =
          ((("(?i)" ++ "\\A(?:") ++ body) ++ ")\\z" : String).data := by
        simp [String.append_assoc]
      rw [hd]
      rw [hc]
      simp
    · rw [if_neg hic]
      have ha : rxScan .normal ("" ++ "\\A(?:" : String).data = (.normal, 0) := rfl
      have hb : rxScan .normal (("" ++ "\\A(?:") ++ body).data =
          (.normal, bnames.length) := by
        simpa using scansS_append ha hbody
      have hc := scansS_append hb
        (show rxScan .normal (")\\z" : String).data = (.normal, 0) from rfl)
      have hd : ("" ++ "\\A(?:" ++ body ++ ")\\z" : String).data =
          ((("" ++ "\\A(?:") ++ body) ++ ")\\z" : String).data := by
        simp [String.append_assoc]
      rw [hd]
      rw [hc]
      simp

end UrlPattern
namespace UrlPattern

/-- C3 counterexample to the unamended claim: a custom regexp part whose
value nests a named group yields a compiled regular expression with two
capture groups but a one-entry name list. -/
theorem c3_counterexample_nested_group :
    ∃ pl r names,
      parsePatternString "((?P<x>a))" defaultOptions pureCallback = .ok pl ∧
      generateRegularExpressionAndNameList pl defaultOptions = .ok (r, names) ∧
      names.length = 1 ∧ captureGroupCount r = 2 :=
  ⟨[⟨.partRegexp, "(?P<x>a)", .partModifierNone, "0", "", ""⟩],
   "\\A(?:((?P<x>a)))\\z", ["0"], rfl, rfl, rfl, rfl⟩

theorem c3_name_list_capture_count_witness :
    (∀ p ∈ ([⟨.partRegexp, "x", .partModifierNone, "n", "", ""⟩] : partList),
        p.pType = .partRegexp →
        rxScan .normal p.value.data = (.normal, 0) ∧ p.value.data.head? ≠ some '?') ∧
    generateRegularExpressionAndNameList
        [⟨.partRegexp, "x", .partModifierNone, "n", "", ""⟩] defaultOptions =
      .ok ("\\A(?:(x))\\z", ["n"]) ∧
    captureGroupCount "\\A(?:(x))\\z" = (["n"] : List String).length :=
  ⟨by decide, rfl,
   @c3_name_list_capture_count [⟨.partRegexp, "x", .partModifierNone, "n", "", ""⟩]
     defaultOptions "\\A(?:(x))\\z" ["n"] (by decide) rfl⟩

end UrlPattern
